import Mathlib

set_option maxHeartbeats 1000000

/-!
Verification of the Shipi MCP server (`src/index.js`).

The development shallowly embeds the server's JavaScript source: JavaScript
runtime values become the inductive type `JSValue`; the zod parameter schemas
become `ZType` trees interpreted by `validate`; the HTTP helper `shipiRequest`
becomes a pure function from a configuration, an endpoint, a parameter object
and a network oracle to the pair of the outbound request and the value the
helper returns; each of the 18 tool handlers becomes a function from the
validated parameter object to that pair together with the MCP text content it
returns.  Library behaviour that the source relies on is embedded according to
its documented semantics: zod strips unknown object keys, applies declared
defaults at `undefined` and rejects wrong types; `URLSearchParams.set`
replaces the value of an existing key in place; `JSON.parse` / `JSON.stringify`
follow the JSON grammar (numbers are modelled at integer precision, which
covers every numeric value of this development); `node-fetch` resolves on any
HTTP status and rejects only on network failure.
-/

namespace Shipi

/-- JavaScript runtime values as used by the server: the JSON values plus the
distinguished `undefined`.  Objects are insertion-ordered association lists,
as property order is observable in JS. -/
inductive JSValue where
  | undef : JSValue
  | null : JSValue
  | bool : Bool → JSValue
  | num : Int → JSValue
  | str : String → JSValue
  | arr : List JSValue → JSValue
  | obj : List (String × JSValue) → JSValue

/-- Property read `o[name]` on an object's field list: the first binding wins,
a missing property reads as `undefined`. -/
def getProp (o : List (String × JSValue)) (name : String) : JSValue :=
  match o.find? (fun p => p.1 == name) with
  | some p => p.2
  | none => JSValue.undef

/-- Property write `o[name] = v`: an existing binding is updated in place
(JS keeps the original insertion position), a new one is appended. -/
def setProp (o : List (String × JSValue)) (name : String) (v : JSValue) :
    List (String × JSValue) :=
  match o with
  | [] => [(name, v)]
  | (k, w) :: rest =>
    if k == name then (k, v) :: rest else (k, w) :: setProp rest name v

/-- Object spread `{...base, ...extra}`: the fields of `extra` are assigned
onto a copy of `base` in order. -/
def spreadObj (base extra : List (String × JSValue)) : List (String × JSValue) :=
  extra.foldl (fun acc p => setProp acc p.1 p.2) base

/-- JavaScript truthiness: `undefined`, `null`, `false`, `0` and `""` are
falsy, everything else (including any object or array) is truthy. -/
def truthy : JSValue → Bool
  | JSValue.undef => false
  | JSValue.null => false
  | JSValue.bool b => b
  | JSValue.num n => n != 0
  | JSValue.str s => s != ""
  | JSValue.arr _ => true
  | JSValue.obj _ => true

/-- The JavaScript `a || b` operator: `a` when truthy, otherwise `b`. -/
def jsOr (a b : JSValue) : JSValue := if truthy a then a else b

mutual
/-- JavaScript `String(v)` coercion, as applied by `URLSearchParams.set`. -/
def jsString : JSValue → String
  | JSValue.undef => "undefined"
  | JSValue.null => "null"
  | JSValue.bool b => if b then "true" else "false"
  | JSValue.num n => toString n
  | JSValue.str s => s
  | JSValue.arr es => jsStringList es
  | JSValue.obj _ => "[object Object]"
termination_by structural v => v

/-- Array-to-string coercion: elements joined by commas, the elements
`null` and `undefined` coercing to the empty string. -/
def jsStringList : List JSValue → String
  | [] => ""
  | v :: vs =>
    (match v with
     | JSValue.undef => ""
     | JSValue.null => ""
     | w => jsString w) ++
    (match vs with | [] => "" | _ => ",") ++ jsStringList vs
termination_by structural l => l
end

/-! JSON parsing, modelling `JSON.parse`.  The parser follows the JSON
grammar; as noted above, number literals are modelled at integer
precision. -/

/-- JSON insignificant whitespace. -/
def jsonWs (c : Char) : Bool := c == ' ' || c == '\t' || c == '\n' || c == '\r'

/-- Drop leading JSON whitespace. -/
def skipWs : List Char → List Char
  | [] => []
  | c :: cs => if jsonWs c then skipWs cs else c :: cs

/-- Value of a hexadecimal digit. -/
def hexVal (c : Char) : Option Nat :=
  let n := c.toNat
  if 48 ≤ n ∧ n ≤ 57 then some (n - 48)
  else if 97 ≤ n ∧ n ≤ 102 then some (n - 87)
  else if 65 ≤ n ∧ n ≤ 70 then some (n - 55)
  else none

/-- The single-character JSON string escapes. -/
def escChar : Char → Option Char
  | '"' => some '"'
  | '\\' => some '\\'
  | '/' => some '/'
  | 'b' => some (Char.ofNat 8)
  | 'f' => some (Char.ofNat 12)
  | 'n' => some '\n'
  | 'r' => some '\r'
  | 't' => some '\t'
  | _ => none

/-- Parse the body of a JSON string after the opening quote, returning the
decoded characters and the input remaining after the closing quote. -/
def parseStrChars : Nat → List Char → Option (List Char × List Char)
  | 0, _ => none
  | _ + 1, [] => none
  | fuel + 1, c :: cs =>
    if c == '"' then some ([], cs)
    else if c == '\\' then
      match cs with
      | 'u' :: h1 :: h2 :: h3 :: h4 :: cs2 =>
        match hexVal h1, hexVal h2, hexVal h3, hexVal h4 with
        | some a, some b, some d, some e =>
          (parseStrChars fuel cs2).map fun r =>
            (Char.ofNat (((a * 16 + b) * 16 + d) * 16 + e) :: r.1, r.2)
        | _, _, _, _ => none
      | e :: cs2 =>
        match escChar e with
        | some ec => (parseStrChars fuel cs2).map fun r => (ec :: r.1, r.2)
        | none => none
      | [] => none
    else if c.toNat < 32 then none
    else (parseStrChars fuel cs).map fun r => (c :: r.1, r.2)

/-- Parse a JSON natural number literal (no leading zeros). -/
def parseNatVal (cs : List Char) : Option (Nat × List Char) :=
  let ds := cs.takeWhile Char.isDigit
  let rest := cs.dropWhile Char.isDigit
  match ds with
  | [] => none
  | [d] => some (d.toNat - 48, rest)
  | d :: _ =>
    if d == '0' then none
    else some (ds.foldl (fun a c => a * 10 + (c.toNat - 48)) 0, rest)

/-- Parse a JSON integer literal with optional minus sign. -/
def parseIntVal : List Char → Option (Int × List Char)
  | '-' :: rest => (parseNatVal rest).map fun r => (-(r.1 : Int), r.2)
  | cs => (parseNatVal cs).map fun r => ((r.1 : Int), r.2)

mutual
/-- Parse one JSON value, returning it with the remaining input. -/
def parseVal : Nat → List Char → Option (JSValue × List Char)
  | 0, _ => none
  | fuel + 1, cs =>
    match skipWs cs with
    | 'n' :: 'u' :: 'l' :: 'l' :: rest => some (JSValue.null, rest)
    | 't' :: 'r' :: 'u' :: 'e' :: rest => some (JSValue.bool true, rest)
    | 'f' :: 'a' :: 'l' :: 's' :: 'e' :: rest => some (JSValue.bool false, rest)
    | '"' :: rest =>
      (parseStrChars (rest.length + 1) rest).map fun r =>
        (JSValue.str (String.mk r.1), r.2)
    | '\x7b' :: rest => parseObjFields fuel rest [] true
    | '[' :: rest => parseArrItems fuel rest [] true
    | c :: rest =>
      if c == '-' ∨ c.isDigit then
        (parseIntVal (c :: rest)).map fun r => (JSValue.num r.1, r.2)
      else none
    | [] => none
termination_by structural fuel _ => fuel

/-- Parse the members of a JSON object after the opening brace.  A repeated
key overwrites the earlier binding in place, as `JSON.parse` does. -/
def parseObjFields : Nat → List Char → List (String × JSValue) → Bool →
    Option (JSValue × List Char)
  | 0, _, _, _ => none
  | fuel + 1, cs, acc, first =>
    match skipWs cs with
    | '\x7d' :: rest => if first then some (JSValue.obj acc, rest) else none
    | '"' :: rest =>
      match parseStrChars (rest.length + 1) rest with
      | none => none
      | some (kcs, rest2) =>
        match skipWs rest2 with
        | ':' :: rest3 =>
          match parseVal fuel rest3 with
          | none => none
          | some (v, rest4) =>
            let acc2 := setProp acc (String.mk kcs) v
            match skipWs rest4 with
            | ',' :: rest5 => parseObjFields fuel rest5 acc2 false
            | '\x7d' :: rest5 => some (JSValue.obj acc2, rest5)
            | _ => none
        | _ => none
    | _ => none
termination_by structural fuel _ _ _ => fuel

/-- Parse the elements of a JSON array after the opening bracket. -/
def parseArrItems : Nat → List Char → List JSValue → Bool →
    Option (JSValue × List Char)
  | 0, _, _, _ => none
  | fuel + 1, cs, acc, first =>
    match skipWs cs with
    | ']' :: rest => if first then some (JSValue.arr acc.reverse, rest) else none
    | _ =>
      match parseVal fuel cs with
      | none => none
      | some (v, rest2) =>
        match skipWs rest2 with
        | ',' :: rest3 => parseArrItems fuel rest3 (v :: acc) false
        | ']' :: rest3 => some (JSValue.arr (v :: acc).reverse, rest3)
        | _ => none
termination_by structural fuel _ _ _ => fuel
end

/-- The model of `JSON.parse(text)`: `none` when the text is not valid JSON
(in JS, when `JSON.parse` throws a `SyntaxError`). -/
def parseJSON (s : String) : Option JSValue :=
  match parseVal (s.length * 2 + 2) s.data with
  | some (v, rest) => if (skipWs rest).isEmpty then some v else none
  | none => none

/-! Serialization, modelling `JSON.stringify(data, null, 2)`. -/

/-- Lower-case hexadecimal digit. -/
def hexDigit (n : Nat) : Char :=
  if n < 10 then Char.ofNat (48 + n) else Char.ofNat (87 + n)

/-- JSON escaping of a single character as performed by `JSON.stringify`:
quote, backslash and control characters are escaped, all else is verbatim. -/
def escapeJSONChar (c : Char) : String :=
  if c == '"' then "\\\""
  else if c == '\\' then "\\\\"
  else if c == '\x08' then "\\b"
  else if c == '\t' then "\\t"
  else if c == '\n' then "\\n"
  else if c == '\x0c' then "\\f"
  else if c == '\r' then "\\r"
  else if c.toNat < 32 then
    "\\u00" ++ String.mk [hexDigit (c.toNat / 16), hexDigit (c.toNat % 16)]
  else String.mk [c]

/-- A JSON string literal for `s`. -/
def quoteJSON (s : String) : String :=
  "\"" ++ String.join (s.data.map escapeJSONChar) ++ "\""

/-- Indentation of `JSON.stringify(_, null, 2)` at nesting depth `d`. -/
def indentStr (d : Nat) : String := String.mk (List.replicate (d * 2) ' ')

mutual
/-- The model of `JSON.stringify(v, null, 2)` at nesting depth `d`: `none`
when the value is `undefined` (in JS, `JSON.stringify(undefined)` yields the
value `undefined` rather than a string). -/
def stringifyVal : JSValue → Nat → Option String
  | JSValue.undef, _ => none
  | JSValue.null, _ => some "null"
  | JSValue.bool b, _ => some (if b then "true" else "false")
  | JSValue.num n, _ => some (toString n)
  | JSValue.str s, _ => some (quoteJSON s)
  | JSValue.arr [], _ => some "[]"
  | JSValue.arr (e :: es), d =>
    some ("[\n" ++ String.intercalate ",\n" (stringifyItems (e :: es) (d + 1)) ++
      "\n" ++ indentStr d ++ "]")
  | JSValue.obj fs, d =>
    match stringifyFields fs (d + 1) with
    | [] => some "\x7b\x7d"
    | items =>
      some ("\x7b\n" ++ String.intercalate ",\n" items ++
        "\n" ++ indentStr d ++ "\x7d")
termination_by structural v _ => v

/-- Array elements; an `undefined` element prints as `null`. -/
def stringifyItems : List JSValue → Nat → List String
  | [], _ => []
  | v :: vs, d =>
    (indentStr d ++ (match stringifyVal v d with | some s => s | none => "null"))
      :: stringifyItems vs d
termination_by structural l _ => l

/-- Object members; a member whose value is `undefined` is omitted. -/
def stringifyFields : List (String × JSValue) → Nat → List String
  | [], _ => []
  | (k, v) :: fs, d =>
    match stringifyVal v d with
    | some s => (indentStr d ++ quoteJSON k ++ ": " ++ s) :: stringifyFields fs d
    | none => stringifyFields fs d
termination_by structural l _ => l
end

/-- The source's `toText`: `JSON.stringify(data, null, 2)`.  The `undefined`
case never arises, since `shipiRequest` always returns a parsed JSON value or
one of its own error objects. -/
def toText (data : JSValue) : String :=
  match stringifyVal data 0 with
  | some s => s
  | none => "undefined"

/-! The HTTP helper `shipiRequest` (src/index.js lines 28-68). -/

/-- Member access `v.name`; after validation the receiver is always an
object, so the non-object cases are unreachable in every use below. -/
def jGet (v : JSValue) (name : String) : JSValue :=
  match v with
  | JSValue.obj o => getProp o name
  | _ => JSValue.undef

/-- `v.map(f)` on a validated array value; non-arrays are unreachable. -/
def jsMap (v : JSValue) (f : JSValue → JSValue) : JSValue :=
  match v with
  | JSValue.arr es => JSValue.arr (es.map f)
  | _ => JSValue.undef

/-- The element list of a validated array value. -/
def jItems : JSValue → List JSValue
  | JSValue.arr es => es
  | _ => []

/-- Process-wide configuration, captured once at startup:
`SHIPI_BASE_URL` (defaulting to the production host) and
`SHIPI_INTEGRATION_KEY` (defaulting to the empty string). -/
structure Config where
  baseURL : String
  defaultKey : String

/-- HTTP method of a tool's single outbound request. -/
inductive Method where
  | get : Method
  | post : Method

/-- The outbound HTTP request observed by the backend: a GET with a query
string (as key/value pairs) or a POST with a JSON body. -/
inductive OutboundRequest where
  | getReq : String → List (String × String) → OutboundRequest
  | postReq : String → JSValue → OutboundRequest

/-- What the network layer yields for a request: a response with an HTTP
status code and a body text (node-fetch resolves on every status), or a
thrown network-level error carrying a message. -/
inductive NetResult where
  | ok : Nat → String → NetResult
  | exc : String → NetResult

/-- `URLSearchParams.set`: the value of an existing key is replaced in
place, a new key is appended. -/
def qsSet (q : List (String × String)) (k v : String) : List (String × String) :=
  match q with
  | [] => [(k, v)]
  | (k', v') :: rest => if k' == k then (k', v) :: rest else (k', v') :: qsSet rest k v

/-- The value a query string carries for key `k`, if any. -/
def lookupQS (q : List (String × String)) (k : String) : Option String :=
  (q.find? (fun p => p.1 == k)).map (fun p => p.2)

/-- The GET branch's filter: `v !== undefined && v !== null && v !== ""`. -/
def qKeep : JSValue → Bool
  | JSValue.undef => false
  | JSValue.null => false
  | JSValue.str s => s != ""
  | _ => true

/-- One step of the GET branch's serialization loop:
`if (v !== undefined && v !== null && v !== "") qs.set(k, String(v))`. -/
def qsAdd (q : List (String × String)) (p : String × JSValue) :
    List (String × String) :=
  if qKeep p.2 then qsSet q p.1 (jsString p.2) else q

/-- The query string built by the GET branch of `shipiRequest`: the resolved
key is set first (when truthy), then every parameter that passes the filter
is set in order. -/
def buildQuery (defaultKey : String) (params : List (String × JSValue)) :
    List (String × String) :=
  let key := jsOr (getProp params "integration_key") (JSValue.str defaultKey)
  let q0 := if truthy key then qsSet [] "integration_key" (jsString key) else []
  params.foldl qsAdd q0

/-- The JSON body built by the POST branch of `shipiRequest`:
`const body = {...params}; if (key && !body.integration_key)
body.integration_key = key;`. -/
def buildBody (defaultKey : String) (params : List (String × JSValue)) : JSValue :=
  let key := jsOr (getProp params "integration_key") (JSValue.str defaultKey)
  let body := params
  if truthy key && !(truthy (getProp body "integration_key")) then
    JSValue.obj (setProp body "integration_key" key)
  else JSValue.obj body

/-- The single outbound request `shipiRequest` hands to `fetch`. -/
def buildReq (cfg : Config) (endpoint : String)
    (params : List (String × JSValue)) (method : Method) : OutboundRequest :=
  match method with
  | Method.get => OutboundRequest.getReq (cfg.baseURL ++ "/" ++ endpoint) (buildQuery cfg.defaultKey params)
  | Method.post => OutboundRequest.postReq (cfg.baseURL ++ "/" ++ endpoint) (buildBody cfg.defaultKey params)

/-- `text.substring(0, n)` on the response body. -/
def strTake (s : String) (n : Nat) : String := String.mk (s.data.take n)

/-- How `shipiRequest` turns the network outcome into its returned value:
a thrown network error is caught and becomes `{status:"error", message}`; a
response body is parsed as JSON, a parse failure becoming `{status:"error",
message, raw}` with the first 500 characters of the body.  The HTTP status
code is never consulted. -/
def handleResp : NetResult → JSValue
  | NetResult.exc msg =>
    JSValue.obj [("status", JSValue.str "error"),
                 ("message", JSValue.str ("Request failed: " ++ msg))]
  | NetResult.ok _ text =>
    match parseJSON text with
    | some v => v
    | none =>
      JSValue.obj [("status", JSValue.str "error"),
                   ("message", JSValue.str "Invalid JSON response"),
                   ("raw", JSValue.str (strTake text 500))]

/-- The model of `shipiRequest(endpoint, params, method)`: given a network
oracle `net` mapping the outbound request to its outcome, it yields both the
request that was sent and the value the helper returns. -/
def shipiRequest (cfg : Config) (endpoint : String)
    (params : List (String × JSValue)) (method : Method)
    (net : OutboundRequest → NetResult) : OutboundRequest × JSValue :=
  let req := buildReq cfg endpoint params method
  (req, handleResp (net req))

/-- One item of an MCP tool result's `content` array. -/
inductive ContentItem where
  | textItem : String → ContentItem

/-- An MCP tool result: `{ content: [...] }`. -/
structure ToolResult where
  content : List ContentItem

/-! The zod parameter schemas.  `z.object` strips unknown keys, treats a
declared `.optional()` key that is absent (or `undefined`) as absent,
applies a declared `.default(d)` in that case, and rejects a value of the
wrong type with a validation error (modelled as `none`).  The 18 tools'
schemas nest in exactly three shapes — scalars, objects of scalars (the
address objects) and arrays of objects of scalars (the product lists) — so
the schema type is stratified accordingly. -/

/-- A scalar zod schema: `z.string()` or `z.number()`. -/
inductive ZScalar where
  | zstr : ZScalar
  | znum : ZScalar

/-- One declared field of a flat (scalar-valued) object schema: name,
scalar schema, whether optional, default. -/
abbrev ZFlatField := String × ZScalar × Bool × Option JSValue

/-- A zod schema as declared by this server's tools: a scalar, an object of
scalars, or an array of objects of scalars. -/
inductive ZType where
  | scalar : ZScalar → ZType
  | zobj : List ZFlatField → ZType
  | zarr : List ZFlatField → ZType

/-- One declared top-level parameter: name, schema, whether optional,
default. -/
abbrev ZField := String × ZType × Bool × Option JSValue

/-- Whether a value is `undefined` (zod treats an absent key and an
explicitly `undefined` one alike). -/
def isUndef : JSValue → Bool
  | JSValue.undef => true
  | _ => false

/-- Validate a value against a scalar schema. -/
def validateScalar : ZScalar → JSValue → Option JSValue
  | ZScalar.zstr, JSValue.str s => some (JSValue.str s)
  | ZScalar.znum, JSValue.num n => some (JSValue.num n)
  | _, _ => none

/-- Validate an object's fields against a flat field list, producing the
parsed object: declared fields in declaration order, unknown keys stripped,
defaults applied at absent or `undefined` values. -/
def validateFlatFields : List ZFlatField → List (String × JSValue) →
    Option (List (String × JSValue))
  | [], _ => some []
  | (name, ty, opt, dflt) :: rest, o =>
    if isUndef (getProp o name) then
      if opt then
        dflt.elim (validateFlatFields rest o)
          (fun d => (validateFlatFields rest o).map (fun w => (name, d) :: w))
      else none
    else
      (validateScalar ty (getProp o name)).bind
        (fun w => (validateFlatFields rest o).map (fun ws => (name, w) :: ws))

/-- Validate a value against a flat object schema. -/
def validateFlatObj (fields : List ZFlatField) : JSValue → Option JSValue
  | JSValue.obj o => (validateFlatFields fields o).map JSValue.obj
  | _ => none

/-- Validate a value against a schema. -/
def validate : ZType → JSValue → Option JSValue
  | ZType.scalar s, v => validateScalar s v
  | ZType.zobj fields, v => validateFlatObj fields v
  | ZType.zarr fields, JSValue.arr es =>
    (es.mapM (validateFlatObj fields)).map JSValue.arr
  | ZType.zarr _, _ => none

/-- Validate a tool's declared parameters against the argument object:
declared fields in declaration order, unknown keys stripped, defaults
applied at absent or `undefined` values. -/
def validateFields : List ZField → List (String × JSValue) →
    Option (List (String × JSValue))
  | [], _ => some []
  | (name, ty, opt, dflt) :: rest, o =>
    if isUndef (getProp o name) then
      if opt then
        dflt.elim (validateFields rest o)
          (fun d => (validateFields rest o).map (fun w => (name, d) :: w))
      else none
    else
      (validate ty (getProp o name)).bind
        (fun w => (validateFields rest o).map (fun ws => (name, w) :: ws))

/-- Top-level validation of a tool's arguments: the argument value must be
an object. -/
def validateTop (fields : List ZField) (args : JSValue) :
    Option (List (String × JSValue)) :=
  match args with
  | JSValue.obj o => validateFields fields o
  | _ => none

/-! The 18 tools: parameter schemas (translated from the zod shapes) and
handlers (translated from the async handler bodies).  Each handler receives
the validated parameter object and the network oracle and yields the
outbound request together with the MCP result `{content:[{type:"text",
text}]}`. -/

/-- `list_shipments` parameter schema. -/
def list_shipments_fields : List ZField :=
  [("integration_key", ZType.scalar ZScalar.zstr, true, none),
   ("page", ZType.scalar ZScalar.znum, true, some (JSValue.num 1)),
   ("per_page", ZType.scalar ZScalar.znum, true, some (JSValue.num 20)),
   ("status", ZType.scalar ZScalar.zstr, true, none),
   ("carrier", ZType.scalar ZScalar.zstr, true, none),
   ("date_from", ZType.scalar ZScalar.zstr, true, none),
   ("date_to", ZType.scalar ZScalar.zstr, true, none)]

/-- `list_shipments` handler. -/
def list_shipments_handler (cfg : Config) (params : List (String × JSValue))
    (net : OutboundRequest → NetResult) : OutboundRequest × ToolResult :=
  let r := shipiRequest cfg "api/v1/shipments.php"
    (spreadObj [("action", JSValue.str "list")] params) Method.get net
  (r.1, ToolResult.mk [ContentItem.textItem (toText r.2)])

/-- `get_shipment` parameter schema. -/
def get_shipment_fields : List ZField :=
  [("integration_key", ZType.scalar ZScalar.zstr, true, none),
   ("id", ZType.scalar ZScalar.zstr, true, none),
   ("order_id", ZType.scalar ZScalar.zstr, true, none)]

/-- `get_shipment` handler. -/
def get_shipment_handler (cfg : Config) (params : List (String × JSValue))
    (net : OutboundRequest → NetResult) : OutboundRequest × ToolResult :=
  let r := shipiRequest cfg "api/v1/shipments.php"
    (spreadObj [("action", JSValue.str "get")] params) Method.get net
  (r.1, ToolResult.mk [ContentItem.textItem (toText r.2)])

/-- `search_shipments` parameter schema. -/
def search_shipments_fields : List ZField :=
  [("integration_key", ZType.scalar ZScalar.zstr, true, none),
   ("q", ZType.scalar ZScalar.zstr, false, none),
   ("limit", ZType.scalar ZScalar.znum, true, some (JSValue.num 20))]

/-- `search_shipments` handler. -/
def search_shipments_handler (cfg : Config) (params : List (String × JSValue))
    (net : OutboundRequest → NetResult) : OutboundRequest × ToolResult :=
  let r := shipiRequest cfg "api/v1/shipments.php"
    (spreadObj [("action", JSValue.str "search")] params) Method.get net
  (r.1, ToolResult.mk [ContentItem.textItem (toText r.2)])

/-- The shipper/recipient address object schema of `create_shipment`. -/
def createAddressFields : List ZFlatField :=
  [("name", ZScalar.zstr, false, none),
   ("company", ZScalar.zstr, true, some (JSValue.str "")),
   ("address1", ZScalar.zstr, false, none),
   ("address2", ZScalar.zstr, true, some (JSValue.str "")),
   ("city", ZScalar.zstr, false, none),
   ("state", ZScalar.zstr, false, none),
   ("postal", ZScalar.zstr, false, none),
   ("country", ZScalar.zstr, false, none),
   ("phone", ZScalar.zstr, true, some (JSValue.str "")),
   ("email", ZScalar.zstr, true, some (JSValue.str ""))]

/-- The product object schema of `create_shipment` and `get_shipping_rates`. -/
def productFields : List ZFlatField :=
  [("name", ZScalar.zstr, true, some (JSValue.str "Package")),
   ("weight", ZScalar.znum, false, none),
   ("quantity", ZScalar.znum, true, some (JSValue.num 1)),
   ("price", ZScalar.znum, true, some (JSValue.num 0)),
   ("length", ZScalar.znum, true, some (JSValue.num 1)),
   ("width", ZScalar.znum, true, some (JSValue.num 1)),
   ("height", ZScalar.znum, true, some (JSValue.num 1))]

/-- `create_shipment` parameter schema. -/
def create_shipment_fields : List ZField :=
  [("integration_key", ZType.scalar ZScalar.zstr, true, none),
   ("carrier_id", ZType.scalar ZScalar.znum, false, none),
   ("service_code", ZType.scalar ZScalar.zstr, true, some (JSValue.str "")),
   ("shipper", ZType.zobj createAddressFields, false, none),
   ("recipient", ZType.zobj createAddressFields, false, none),
   ("products", ZType.zarr productFields, false, none)]

/-- `create_shipment` handler: flattens shipper/recipient into `s_*`/`t_*`
fields of the `meta` object and renames product fields to `prod_*`
(`length` becoming `prod_depth`). -/
def create_shipment_handler (cfg : Config) (params : List (String × JSValue))
    (net : OutboundRequest → NetResult) : OutboundRequest × ToolResult :=
  let integration_key := getProp params "integration_key"
  let carrier_id := getProp params "carrier_id"
  let service_code := getProp params "service_code"
  let shipper := getProp params "shipper"
  let recipient := getProp params "recipient"
  let products := getProp params "products"
  let key := jsOr integration_key (JSValue.str cfg.defaultKey)
  let meta := JSValue.obj
    [("label", JSValue.str "d"),
     ("s_name", jGet shipper "name"),
     ("s_company", jsOr (jGet shipper "company") (JSValue.str "")),
     ("s_address1", jGet shipper "address1"),
     ("s_address2", jsOr (jGet shipper "address2") (JSValue.str "")),
     ("s_city", jGet shipper "city"),
     ("s_state", jGet shipper "state"),
     ("s_postal", jGet shipper "postal"),
     ("s_country", jGet shipper "country"),
     ("s_phone", jsOr (jGet shipper "phone") (JSValue.str "")),
     ("s_email", jsOr (jGet shipper "email") (JSValue.str "")),
     ("t_name", jGet recipient "name"),
     ("t_company", jsOr (jGet recipient "company") (JSValue.str "")),
     ("t_address1", jGet recipient "address1"),
     ("t_address2", jsOr (jGet recipient "address2") (JSValue.str "")),
     ("t_city", jGet recipient "city"),
     ("t_state", jGet recipient "state"),
     ("t_postal", jGet recipient "postal"),
     ("t_country", jGet recipient "country"),
     ("t_phone", jsOr (jGet recipient "phone") (JSValue.str "")),
     ("t_email", jsOr (jGet recipient "email") (JSValue.str "")),
     ("service_code", jsOr service_code (JSValue.str "")),
     ("carrier_id", carrier_id),
     ("products", jsMap products (fun p => JSValue.obj
        [("prod_name", jsOr (jGet p "name") (JSValue.str "Package")),
         ("prod_weight", jGet p "weight"),
         ("prod_quantity", jsOr (jGet p "quantity") (JSValue.num 1)),
         ("prod_price", jsOr (jGet p "price") (JSValue.num 0)),
         ("prod_depth", jsOr (jGet p "length") (JSValue.num 1)),
         ("prod_width", jsOr (jGet p "width") (JSValue.num 1)),
         ("prod_height", jsOr (jGet p "height") (JSValue.num 1))]))]
  let r := shipiRequest cfg "label_api/create_shipment.php"
    [("integrated_key", key), ("meta", meta)] Method.post net
  (r.1, ToolResult.mk [ContentItem.textItem (toText r.2)])

/-- `cancel_shipment` parameter schema. -/
def cancel_shipment_fields : List ZField :=
  [("integration_key", ZType.scalar ZScalar.zstr, true, none),
   ("shipment_id", ZType.scalar ZScalar.znum, false, none)]

/-- `cancel_shipment` handler: the caller's `shipment_id` is sent as
`del_ref`. -/
def cancel_shipment_handler (cfg : Config) (params : List (String × JSValue))
    (net : OutboundRequest → NetResult) : OutboundRequest × ToolResult :=
  let key := jsOr (getProp params "integration_key") (JSValue.str cfg.defaultKey)
  let r := shipiRequest cfg "cancel_api/delete_shipment.php"
    [("integrated_key", key), ("del_ref", getProp params "shipment_id")]
    Method.post net
  (r.1, ToolResult.mk [ContentItem.textItem (toText r.2)])

/-- The receiver address object schema of `get_shipping_rates`. -/
def ratesAddressFields : List ZFlatField :=
  [("name", ZScalar.zstr, true, some (JSValue.str "")),
   ("address1", ZScalar.zstr, false, none),
   ("address2", ZScalar.zstr, true, some (JSValue.str "")),
   ("city", ZScalar.zstr, false, none),
   ("state", ZScalar.zstr, false, none),
   ("postal", ZScalar.zstr, false, none),
   ("country", ZScalar.zstr, false, none)]

/-- `get_shipping_rates` parameter schema. -/
def get_shipping_rates_fields : List ZField :=
  [("integration_key", ZType.scalar ZScalar.zstr, true, none),
   ("receiver_address", ZType.zobj ratesAddressFields, false, none),
   ("products", ZType.zarr productFields, false, none),
   ("account_id", ZType.scalar ZScalar.znum, true, none)]

/-- `get_shipping_rates` handler. -/
def get_shipping_rates_handler (cfg : Config) (params : List (String × JSValue))
    (net : OutboundRequest → NetResult) : OutboundRequest × ToolResult :=
  let key := jsOr (getProp params "integration_key") (JSValue.str cfg.defaultKey)
  let r := shipiRequest cfg "rates_api/shipi_rates.php"
    [("integration_key", key),
     ("receiver_address", getProp params "receiver_address"),
     ("products", jsMap (getProp params "products") (fun p => JSValue.obj
        [("prod_name", jsOr (jGet p "name") (JSValue.str "Package")),
         ("prod_weight", jGet p "weight"),
         ("prod_quantity", jsOr (jGet p "quantity") (JSValue.num 1)),
         ("prod_price", jsOr (jGet p "price") (JSValue.num 0)),
         ("prod_depth", jsOr (jGet p "length") (JSValue.num 1)),
         ("prod_width", jsOr (jGet p "width") (JSValue.num 1)),
         ("prod_height", jsOr (jGet p "height") (JSValue.num 1))])),
     ("account_id", getProp params "account_id")] Method.post net
  (r.1, ToolResult.mk [ContentItem.textItem (toText r.2)])

/-- `schedule_pickup` parameter schema. -/
def schedule_pickup_fields : List ZField :=
  [("integration_key", ZType.scalar ZScalar.zstr, true, none),
   ("order_id", ZType.scalar ZScalar.zstr, false, none),
   ("carrier_type", ZType.scalar ZScalar.zstr, false, none),
   ("pickup_date", ZType.scalar ZScalar.zstr, true, none),
   ("pickup_time", ZType.scalar ZScalar.zstr, true, none)]

/-- `schedule_pickup` handler: the pickup date and time are added to `meta`
only when truthy. -/
def schedule_pickup_handler (cfg : Config) (params : List (String × JSValue))
    (net : OutboundRequest → NetResult) : OutboundRequest × ToolResult :=
  let key := jsOr (getProp params "integration_key") (JSValue.str cfg.defaultKey)
  let meta0 : List (String × JSValue) := []
  let meta1 := if truthy (getProp params "pickup_date") then
    setProp meta0 "pickup_date" (getProp params "pickup_date") else meta0
  let meta2 := if truthy (getProp params "pickup_time") then
    setProp meta1 "pickup_time" (getProp params "pickup_time") else meta1
  let r := shipiRequest cfg "pickup_api/create_pickup.php"
    [("integrated_key", key),
     ("order_id", getProp params "order_id"),
     ("carrier_type", getProp params "carrier_type"),
     ("label", JSValue.str "d"),
     ("meta", JSValue.obj meta2)] Method.post net
  (r.1, ToolResult.mk [ContentItem.textItem (toText r.2)])

/-- `track_shipment` parameter schema: the only tool without an
`integration_key` parameter. -/
def track_shipment_fields : List ZField :=
  [("tracking_number", ZType.scalar ZScalar.zstr, false, none),
   ("carrier", ZType.scalar ZScalar.zstr, true, some (JSValue.str ""))]

/-- `track_shipment` handler. -/
def track_shipment_handler (cfg : Config) (params : List (String × JSValue))
    (net : OutboundRequest → NetResult) : OutboundRequest × ToolResult :=
  let r := shipiRequest cfg "api/v1/tracking_url.php"
    [("tracking_number", getProp params "tracking_number"),
     ("carrier", jsOr (getProp params "carrier") (JSValue.str ""))]
    Method.get net
  (r.1, ToolResult.mk [ContentItem.textItem (toText r.2)])

/-- `fetch_labels` parameter schema. -/
def fetch_labels_fields : List ZField :=
  [("integration_key", ZType.scalar ZScalar.zstr, true, none),
   ("page", ZType.scalar ZScalar.znum, true, some (JSValue.num 1)),
   ("limit", ZType.scalar ZScalar.znum, true, some (JSValue.num 50)),
   ("printed", ZType.scalar ZScalar.zstr, true, some (JSValue.str "all"))]

/-- `fetch_labels` handler. -/
def fetch_labels_handler (cfg : Config) (params : List (String × JSValue))
    (net : OutboundRequest → NetResult) : OutboundRequest × ToolResult :=
  let key := jsOr (getProp params "integration_key") (JSValue.str cfg.defaultKey)
  let r := shipiRequest cfg "label_api/fetch_labels.php"
    [("integration_key", key),
     ("page", getProp params "page"),
     ("limit", getProp params "limit"),
     ("printed", getProp params "printed")] Method.get net
  (r.1, ToolResult.mk [ContentItem.textItem (toText r.2)])

/-- `list_addresses` parameter schema. -/
def list_addresses_fields : List ZField :=
  [("integration_key", ZType.scalar ZScalar.zstr, true, none),
   ("type", ZType.scalar ZScalar.zstr, true, none)]

/-- `list_addresses` handler. -/
def list_addresses_handler (cfg : Config) (params : List (String × JSValue))
    (net : OutboundRequest → NetResult) : OutboundRequest × ToolResult :=
  let r := shipiRequest cfg "api/v1/addresses.php"
    (spreadObj [("action", JSValue.str "list")] params) Method.get net
  (r.1, ToolResult.mk [ContentItem.textItem (toText r.2)])

/-- `get_address` parameter schema. -/
def get_address_fields : List ZField :=
  [("integration_key", ZType.scalar ZScalar.zstr, true, none),
   ("id", ZType.scalar ZScalar.znum, false, none)]

/-- `get_address` handler. -/
def get_address_handler (cfg : Config) (params : List (String × JSValue))
    (net : OutboundRequest → NetResult) : OutboundRequest × ToolResult :=
  let r := shipiRequest cfg "api/v1/addresses.php"
    [("action", JSValue.str "get"),
     ("id", getProp params "id"),
     ("integration_key", getProp params "integration_key")] Method.get net
  (r.1, ToolResult.mk [ContentItem.textItem (toText r.2)])

/-- `add_address` parameter schema. -/
def add_address_fields : List ZField :=
  [("integration_key", ZType.scalar ZScalar.zstr, true, none),
   ("type", ZType.scalar ZScalar.zstr, true, some (JSValue.str "shipper")),
   ("name", ZType.scalar ZScalar.zstr, false, none),
   ("company", ZType.scalar ZScalar.zstr, true, some (JSValue.str "")),
   ("mobile", ZType.scalar ZScalar.zstr, true, some (JSValue.str "")),
   ("email", ZType.scalar ZScalar.zstr, true, some (JSValue.str "")),
   ("address1", ZType.scalar ZScalar.zstr, false, none),
   ("address2", ZType.scalar ZScalar.zstr, true, some (JSValue.str "")),
   ("city", ZType.scalar ZScalar.zstr, false, none),
   ("state", ZType.scalar ZScalar.zstr, true, some (JSValue.str "")),
   ("country", ZType.scalar ZScalar.zstr, false, none),
   ("postal", ZType.scalar ZScalar.zstr, false, none),
   ("tax_id", ZType.scalar ZScalar.zstr, true, some (JSValue.str ""))]

/-- `add_address` handler. -/
def add_address_handler (cfg : Config) (params : List (String × JSValue))
    (net : OutboundRequest → NetResult) : OutboundRequest × ToolResult :=
  let r := shipiRequest cfg "api/v1/addresses.php"
    (spreadObj [("action", JSValue.str "add")] params) Method.post net
  (r.1, ToolResult.mk [ContentItem.textItem (toText r.2)])

/-- `edit_address` parameter schema. -/
def edit_address_fields : List ZField :=
  [("integration_key", ZType.scalar ZScalar.zstr, true, none),
   ("id", ZType.scalar ZScalar.znum, false, none),
   ("type", ZType.scalar ZScalar.zstr, true, none),
   ("name", ZType.scalar ZScalar.zstr, true, none),
   ("company", ZType.scalar ZScalar.zstr, true, none),
   ("mobile", ZType.scalar ZScalar.zstr, true, none),
   ("email", ZType.scalar ZScalar.zstr, true, none),
   ("address1", ZType.scalar ZScalar.zstr, true, none),
   ("address2", ZType.scalar ZScalar.zstr, true, none),
   ("city", ZType.scalar ZScalar.zstr, true, none),
   ("state", ZType.scalar ZScalar.zstr, true, none),
   ("country", ZType.scalar ZScalar.zstr, true, none),
   ("postal", ZType.scalar ZScalar.zstr, true, none)]

/-- `edit_address` handler. -/
def edit_address_handler (cfg : Config) (params : List (String × JSValue))
    (net : OutboundRequest → NetResult) : OutboundRequest × ToolResult :=
  let r := shipiRequest cfg "api/v1/addresses.php"
    (spreadObj [("action", JSValue.str "edit")] params) Method.post net
  (r.1, ToolResult.mk [ContentItem.textItem (toText r.2)])

/-- `delete_address` parameter schema. -/
def delete_address_fields : List ZField :=
  [("integration_key", ZType.scalar ZScalar.zstr, true, none),
   ("id", ZType.scalar ZScalar.znum, false, none)]

/-- `delete_address` handler. -/
def delete_address_handler (cfg : Config) (params : List (String × JSValue))
    (net : OutboundRequest → NetResult) : OutboundRequest × ToolResult :=
  let r := shipiRequest cfg "api/v1/addresses.php"
    [("action", JSValue.str "delete"),
     ("id", getProp params "id"),
     ("integration_key", getProp params "integration_key")] Method.post net
  (r.1, ToolResult.mk [ContentItem.textItem (toText r.2)])

/-- `list_carriers` parameter schema. -/
def list_carriers_fields : List ZField :=
  [("integration_key", ZType.scalar ZScalar.zstr, true, none)]

/-- `list_carriers` handler. -/
def list_carriers_handler (cfg : Config) (params : List (String × JSValue))
    (net : OutboundRequest → NetResult) : OutboundRequest × ToolResult :=
  let r := shipiRequest cfg "api/v1/carriers.php"
    (spreadObj [("action", JSValue.str "list")] params) Method.get net
  (r.1, ToolResult.mk [ContentItem.textItem (toText r.2)])

/-- `get_carrier` parameter schema. -/
def get_carrier_fields : List ZField :=
  [("integration_key", ZType.scalar ZScalar.zstr, true, none),
   ("id", ZType.scalar ZScalar.znum, false, none)]

/-- `get_carrier` handler. -/
def get_carrier_handler (cfg : Config) (params : List (String × JSValue))
    (net : OutboundRequest → NetResult) : OutboundRequest × ToolResult :=
  let r := shipiRequest cfg "api/v1/carriers.php"
    [("action", JSValue.str "get"),
     ("id", getProp params "id"),
     ("integration_key", getProp params "integration_key")] Method.get net
  (r.1, ToolResult.mk [ContentItem.textItem (toText r.2)])

/-- `get_account_info` parameter schema. -/
def get_account_info_fields : List ZField :=
  [("integration_key", ZType.scalar ZScalar.zstr, true, none)]

/-- `get_account_info` handler. -/
def get_account_info_handler (cfg : Config) (params : List (String × JSValue))
    (net : OutboundRequest → NetResult) : OutboundRequest × ToolResult :=
  let r := shipiRequest cfg "api/v1/account.php" (spreadObj [] params) Method.get net
  (r.1, ToolResult.mk [ContentItem.textItem (toText r.2)])

/-- `get_shipping_stats` parameter schema. -/
def get_shipping_stats_fields : List ZField :=
  [("integration_key", ZType.scalar ZScalar.zstr, true, none),
   ("period", ZType.scalar ZScalar.zstr, true, some (JSValue.str "month")),
   ("date_from", ZType.scalar ZScalar.zstr, true, none),
   ("date_to", ZType.scalar ZScalar.zstr, true, none)]

/-- `get_shipping_stats` handler. -/
def get_shipping_stats_handler (cfg : Config) (params : List (String × JSValue))
    (net : OutboundRequest → NetResult) : OutboundRequest × ToolResult :=
  let r := shipiRequest cfg "api/v1/stats.php" (spreadObj [] params) Method.get net
  (r.1, ToolResult.mk [ContentItem.textItem (toText r.2)])

/-- A registered tool: its name, parameter schema, the request-body field
its endpoint reads the authentication key from, and its handler. -/
structure ToolDef where
  name : String
  fields : List ZField
  authField : String
  handler : Config → List (String × JSValue) → (OutboundRequest → NetResult) →
    OutboundRequest × ToolResult

/-! The 18 registered tools.  The `authField` of `create_shipment`,
`cancel_shipment` and `schedule_pickup` is `integrated_key`, the field those
endpoints read; every other tool carries the key as `integration_key`. -/

def list_shipmentsTool : ToolDef :=
  ⟨"list_shipments", list_shipments_fields, "integration_key", list_shipments_handler⟩

def get_shipmentTool : ToolDef :=
  ⟨"get_shipment", get_shipment_fields, "integration_key", get_shipment_handler⟩

def search_shipmentsTool : ToolDef :=
  ⟨"search_shipments", search_shipments_fields, "integration_key", search_shipments_handler⟩

def create_shipmentTool : ToolDef :=
  ⟨"create_shipment", create_shipment_fields, "integrated_key", create_shipment_handler⟩

def cancel_shipmentTool : ToolDef :=
  ⟨"cancel_shipment", cancel_shipment_fields, "integrated_key", cancel_shipment_handler⟩

def get_shipping_ratesTool : ToolDef :=
  ⟨"get_shipping_rates", get_shipping_rates_fields, "integration_key", get_shipping_rates_handler⟩

def schedule_pickupTool : ToolDef :=
  ⟨"schedule_pickup", schedule_pickup_fields, "integrated_key", schedule_pickup_handler⟩

def track_shipmentTool : ToolDef :=
  ⟨"track_shipment", track_shipment_fields, "integration_key", track_shipment_handler⟩

def fetch_labelsTool : ToolDef :=
  ⟨"fetch_labels", fetch_labels_fields, "integration_key", fetch_labels_handler⟩

def list_addressesTool : ToolDef :=
  ⟨"list_addresses", list_addresses_fields, "integration_key", list_addresses_handler⟩

def get_addressTool : ToolDef :=
  ⟨"get_address", get_address_fields, "integration_key", get_address_handler⟩

def add_addressTool : ToolDef :=
  ⟨"add_address", add_address_fields, "integration_key", add_address_handler⟩

def edit_addressTool : ToolDef :=
  ⟨"edit_address", edit_address_fields, "integration_key", edit_address_handler⟩

def delete_addressTool : ToolDef :=
  ⟨"delete_address", delete_address_fields, "integration_key", delete_address_handler⟩

def list_carriersTool : ToolDef :=
  ⟨"list_carriers", list_carriers_fields, "integration_key", list_carriers_handler⟩

def get_carrierTool : ToolDef :=
  ⟨"get_carrier", get_carrier_fields, "integration_key", get_carrier_handler⟩

def get_account_infoTool : ToolDef :=
  ⟨"get_account_info", get_account_info_fields, "integration_key", get_account_info_handler⟩

def get_shipping_statsTool : ToolDef :=
  ⟨"get_shipping_stats", get_shipping_stats_fields, "integration_key", get_shipping_stats_handler⟩

/-- The catalog of the 18 registered tools, in registration order. -/
def tools : List ToolDef :=
  [list_shipmentsTool, get_shipmentTool, search_shipmentsTool,
   create_shipmentTool, cancel_shipmentTool, get_shipping_ratesTool,
   schedule_pickupTool, track_shipmentTool, fetch_labelsTool,
   list_addressesTool, get_addressTool, add_addressTool, edit_addressTool,
   delete_addressTool, list_carriersTool, get_carrierTool,
   get_account_infoTool, get_shipping_statsTool]

/-- The 17 tools whose schema declares an `integration_key` parameter:
every registered tool except `track_shipment`. -/
def keyedTools : List ToolDef :=
  [list_shipmentsTool, get_shipmentTool, search_shipmentsTool,
   create_shipmentTool, cancel_shipmentTool, get_shipping_ratesTool,
   schedule_pickupTool, fetch_labelsTool,
   list_addressesTool, get_addressTool, add_addressTool, edit_addressTool,
   delete_addressTool, list_carriersTool, get_carrierTool,
   get_account_infoTool, get_shipping_statsTool]

/-- One tool invocation: the arguments are validated against the tool's
schema (a failure yields `none` and the handler never runs, so no request is
built), then the handler runs against the network oracle. -/
def toolInvoke (cfg : Config) (t : ToolDef) (args : JSValue)
    (net : OutboundRequest → NetResult) : Option (OutboundRequest × ToolResult) :=
  (validateTop t.fields args).map (fun vp => t.handler cfg vp net)

/-- The authentication key a request carries: the value of `integration_key`
in a GET query string, or of the given body field in a POST body; the empty
string when the field is absent (the backend then sees no key). -/
def reqAuthKey (field : String) : OutboundRequest → String
  | OutboundRequest.getReq _ q => (lookupQS q "integration_key").getD ""
  | OutboundRequest.postReq _ body =>
    match jGet body field with
    | JSValue.str k => k
    | _ => ""

/-- Read a property of a POST request's body. -/
def reqBodyProp (r : OutboundRequest) (k : String) : JSValue :=
  match r with
  | OutboundRequest.postReq _ body => jGet body k
  | OutboundRequest.getReq _ _ => JSValue.undef

/-- The query string of a GET request. -/
def reqQuery : OutboundRequest → List (String × String)
  | OutboundRequest.getReq _ q => q
  | OutboundRequest.postReq _ _ => []

/-- A concrete configuration used by the witness evaluations. -/
def cfg0 : Config := ⟨"https://app.myshipi.com", "DK"⟩

/-- A network oracle that always fails, used by witness evaluations. -/
def netDown : OutboundRequest → NetResult := fun _ => NetResult.exc "offline"

/-- The ten caller-facing fields of a `create_shipment` address. -/
structure AddrVals where
  nm : String
  co : String
  a1 : String
  a2 : String
  ci : String
  st : String
  po : String
  cy : String
  ph : String
  em : String

/-- A shipper/recipient argument with every field explicitly present, in
schema order. -/
def mkAddrArg (x : AddrVals) : JSValue :=
  JSValue.obj [("name", JSValue.str x.nm), ("company", JSValue.str x.co),
    ("address1", JSValue.str x.a1), ("address2", JSValue.str x.a2),
    ("city", JSValue.str x.ci), ("state", JSValue.str x.st),
    ("postal", JSValue.str x.po), ("country", JSValue.str x.cy),
    ("phone", JSValue.str x.ph), ("email", JSValue.str x.em)]

/-- The seven caller-facing fields of a product. -/
structure ProdVals where
  nm : String
  w : Int
  q : Int
  pr : Int
  len : Int
  wd : Int
  ht : Int

/-- A product argument with every field explicitly present, in schema
order. -/
def mkProdArg (x : ProdVals) : JSValue :=
  JSValue.obj [("name", JSValue.str x.nm), ("weight", JSValue.num x.w),
    ("quantity", JSValue.num x.q), ("price", JSValue.num x.pr),
    ("length", JSValue.num x.len), ("width", JSValue.num x.wd),
    ("height", JSValue.num x.ht)]

/-- The backend product entry the handlers' product mapping produces for an
explicitly given product: `prod_*` names, `length` renamed to `prod_depth`,
and the `x || d` defaults applied to falsy (zero / empty) values. -/
def mappedProd (x : ProdVals) : JSValue :=
  JSValue.obj
    [("prod_name", JSValue.str (if x.nm = "" then "Package" else x.nm)),
     ("prod_weight", JSValue.num x.w),
     ("prod_quantity", JSValue.num (if x.q = 0 then 1 else x.q)),
     ("prod_price", JSValue.num (if x.pr = 0 then 0 else x.pr)),
     ("prod_depth", JSValue.num (if x.len = 0 then 1 else x.len)),
     ("prod_width", JSValue.num (if x.wd = 0 then 1 else x.wd)),
     ("prod_height", JSValue.num (if x.ht = 0 then 1 else x.ht))]

/-- A `create_shipment` argument object with every field explicitly
present. -/
def createArgsAll (cid : Int) (sc : String) (sh re : AddrVals)
    (prods : List ProdVals) : JSValue :=
  JSValue.obj [("carrier_id", JSValue.num cid), ("service_code", JSValue.str sc),
    ("shipper", mkAddrArg sh), ("recipient", mkAddrArg re),
    ("products", JSValue.arr (prods.map mkProdArg))]

/-- The validated parameter object of `createArgsAll`: each explicitly
present, correctly typed field passes through unchanged, in schema order. -/
def createVp (cid : Int) (sc : String) (sh re : AddrVals)
    (prods : List ProdVals) : List (String × JSValue) :=
  [("carrier_id", JSValue.num cid), ("service_code", JSValue.str sc),
   ("shipper", mkAddrArg sh), ("recipient", mkAddrArg re),
   ("products", JSValue.arr (prods.map mkProdArg))]

/-- A `get_shipping_rates` argument object with an explicit product list
and a receiver address carrying the required fields. -/
def ratesArgs (ra : AddrVals) (prods : List ProdVals) : JSValue :=
  JSValue.obj
    [("receiver_address", JSValue.obj
       [("name", JSValue.str ra.nm), ("address1", JSValue.str ra.a1),
        ("address2", JSValue.str ra.a2), ("city", JSValue.str ra.ci),
        ("state", JSValue.str ra.st), ("postal", JSValue.str ra.po),
        ("country", JSValue.str ra.cy)]),
     ("products", JSValue.arr (prods.map mkProdArg))]

/-! Basic lemmas about the object and query-string operations. -/

lemma getProp_nil (name : String) : getProp [] name = JSValue.undef := rfl

lemma getProp_cons (k : String) (v : JSValue) (o : List (String × JSValue))
    (name : String) :
    getProp ((k, v) :: o) name = if k = name then v else getProp o name := by
  by_cases h : k = name
  · rw [if_pos h]
    unfold getProp
    rw [List.find?_cons_of_pos _ (by simp [h])]
  · rw [if_neg h]
    unfold getProp
    rw [List.find?_cons_of_neg _ (by simp [h])]

lemma getProp_eq_undef_of_not_mem (o : List (String × JSValue)) (name : String)
    (h : name ∉ o.map (fun p => p.1)) : getProp o name = JSValue.undef := by
  induction o with
  | nil => rfl
  | cons p rest ih =>
    obtain ⟨k, v⟩ := p
    simp only [List.map_cons, List.mem_cons] at h
    push_neg at h
    rw [getProp_cons, if_neg (Ne.symm h.1)]
    exact ih h.2

lemma setProp_nil (name : String) (v : JSValue) :
    setProp [] name v = [(name, v)] := rfl

lemma setProp_cons (k : String) (w : JSValue) (o : List (String × JSValue))
    (name : String) (v : JSValue) :
    setProp ((k, w) :: o) name v =
      if k = name then (k, v) :: o else (k, w) :: setProp o name v := by
  by_cases h : k = name <;> simp [setProp, h]

lemma setProp_getProp_self (o : List (String × JSValue)) (name : String)
    (v : JSValue) : getProp (setProp o name v) name = v := by
  induction o with
  | nil => rw [setProp_nil, getProp_cons, if_pos rfl]
  | cons p rest ih =>
    obtain ⟨k, w⟩ := p
    rw [setProp_cons]
    by_cases h : k = name
    · rw [if_pos h, getProp_cons, if_pos h]
    · rw [if_neg h, getProp_cons, if_neg h, ih]

lemma setProp_getProp_ne (o : List (String × JSValue)) (name k' : String)
    (v : JSValue) (h : k' ≠ name) :
    getProp (setProp o name v) k' = getProp o k' := by
  induction o with
  | nil =>
    rw [setProp_nil, getProp_cons, if_neg (Ne.symm h), getProp_nil]
  | cons p rest ih =>
    obtain ⟨k, w⟩ := p
    rw [setProp_cons]
    by_cases hk : k = name
    · have hkk : k ≠ k' := fun hx => h (hx ▸ hk)
      rw [if_pos hk, getProp_cons, getProp_cons, if_neg hkk, if_neg hkk]
    · rw [if_neg hk, getProp_cons, getProp_cons]
      by_cases hx : k = k'
      · rw [if_pos hx, if_pos hx]
      · rw [if_neg hx, if_neg hx, ih]

lemma setProp_of_not_mem (o : List (String × JSValue)) (name : String)
    (v : JSValue) (h : name ∉ o.map (fun p => p.1)) :
    setProp o name v = o ++ [(name, v)] := by
  induction o with
  | nil => rfl
  | cons p rest ih =>
    obtain ⟨k, w⟩ := p
    simp only [List.map_cons, List.mem_cons] at h
    push_neg at h
    rw [setProp_cons, if_neg (Ne.symm h.1), List.cons_append, ih h.2]

lemma lookupQS_nil (k : String) : lookupQS [] k = none := rfl

lemma lookupQS_cons (k v : String) (q : List (String × String)) (name : String) :
    lookupQS ((k, v) :: q) name =
      if k = name then some v else lookupQS q name := by
  by_cases h : k = name
  · rw [if_pos h]
    unfold lookupQS
    rw [List.find?_cons_of_pos _ (by simp [h])]
    rfl
  · rw [if_neg h]
    unfold lookupQS
    rw [List.find?_cons_of_neg _ (by simp [h])]

lemma qsSet_nil (k v : String) : qsSet [] k v = [(k, v)] := rfl

lemma qsSet_cons (k0 v0 : String) (q : List (String × String)) (k v : String) :
    qsSet ((k0, v0) :: q) k v =
      if k0 = k then (k0, v) :: q else (k0, v0) :: qsSet q k v := by
  by_cases h : k0 = k <;> simp [qsSet, h]

lemma lookupQS_qsSet_self (q : List (String × String)) (k v : String) :
    lookupQS (qsSet q k v) k = some v := by
  induction q with
  | nil => rw [qsSet_nil, lookupQS_cons, if_pos rfl]
  | cons p rest ih =>
    obtain ⟨k0, v0⟩ := p
    rw [qsSet_cons]
    by_cases h : k0 = k
    · rw [if_pos h, lookupQS_cons, if_pos h]
    · rw [if_neg h, lookupQS_cons, if_neg h, ih]

lemma lookupQS_qsSet_ne (q : List (String × String)) (k v k' : String)
    (h : k' ≠ k) : lookupQS (qsSet q k v) k' = lookupQS q k' := by
  induction q with
  | nil =>
    rw [qsSet_nil, lookupQS_cons, if_neg (Ne.symm h), lookupQS_nil]
  | cons p rest ih =>
    obtain ⟨k0, v0⟩ := p
    rw [qsSet_cons]
    by_cases h0 : k0 = k
    · have hkk : k0 ≠ k' := fun hx => h (hx ▸ h0)
      rw [if_pos h0, lookupQS_cons, lookupQS_cons, if_neg hkk, if_neg hkk]
    · rw [if_neg h0, lookupQS_cons, lookupQS_cons]
      by_cases hx : k0 = k'
      · rw [if_pos hx, if_pos hx]
      · rw [if_neg hx, if_neg hx, ih]

/-- Spreading a field list with pairwise-fresh, mutually distinct keys onto a
base object appends it. -/
lemma spreadObj_append (extra base : List (String × JSValue))
    (hfresh : ∀ p ∈ extra, p.1 ∉ base.map (fun q => q.1))
    (hnd : (extra.map (fun p => p.1)).Nodup) :
    spreadObj base extra = base ++ extra := by
  induction extra generalizing base with
  | nil => simp [spreadObj]
  | cons p rest ih =>
    obtain ⟨k, v⟩ := p
    simp only [List.map_cons, List.nodup_cons] at hnd
    have hk : k ∉ base.map (fun q => q.1) :=
      hfresh (k, v) (List.mem_cons_self _ _)
    have hstep : spreadObj base ((k, v) :: rest) =
        spreadObj (base ++ [(k, v)]) rest := by
      simp [spreadObj, List.foldl_cons, setProp_of_not_mem base k v hk]
    rw [hstep, ih (base ++ [(k, v)])]
    · simp
    · intro p hp
      simp only [List.map_append, List.mem_append, List.map_cons,
        List.map_nil, List.mem_singleton]
      push_neg
      constructor
      · exact fun hx => hfresh p (List.mem_cons_of_mem _ hp) hx
      · intro hx
        exact hnd.1 (hx ▸ List.mem_map_of_mem (fun q => q.1) hp)
    · exact hnd.2

/-! Lemmas about the GET serialization loop. -/

/-- Folding entries none of which sets `name` leaves the value at `name`
unchanged. -/
lemma foldl_qsAdd_skip (l : List (String × JSValue)) (q : List (String × String))
    (name : String) (h : ∀ p ∈ l, p.1 = name → qKeep p.2 = false) :
    lookupQS (List.foldl qsAdd q l) name = lookupQS q name := by
  induction l generalizing q with
  | nil => rfl
  | cons p rest ih =>
    obtain ⟨k, v⟩ := p
    rw [List.foldl_cons]
    have hrest : ∀ p ∈ rest, p.1 = name → qKeep p.2 = false :=
      fun p hp => h p (List.mem_cons_of_mem _ hp)
    by_cases hkeep : qKeep v = true
    · have hk : k ≠ name := by
        intro hx
        exact absurd (h (k, v) (List.mem_cons_self _ _) hx) (by simp [hkeep])
      rw [show qsAdd q (k, v) = qsSet q k (jsString v) by simp [qsAdd, hkeep]]
      rw [ih _ hrest, lookupQS_qsSet_ne _ _ _ _ (Ne.symm hk)]
    · have hkf : qKeep v = false := by simpa using hkeep
      rw [show qsAdd q (k, v) = q by simp [qsAdd, hkf]]
      exact ih _ hrest

/-- Folding a parameter list containing a kept entry for `name`, with no
entry for `name` after it, yields that entry's serialized value. -/
lemma foldl_qsAdd_found (l1 l2 : List (String × JSValue)) (name : String)
    (v : JSValue) (q : List (String × String)) (hkeep : qKeep v = true)
    (h2 : ∀ p ∈ l2, p.1 = name → qKeep p.2 = false) :
    lookupQS (List.foldl qsAdd q (l1 ++ (name, v) :: l2)) name =
      some (jsString v) := by
  rw [List.foldl_append, List.foldl_cons]
  rw [show qsAdd (List.foldl qsAdd q l1) (name, v) =
      qsSet (List.foldl qsAdd q l1) name (jsString v) by simp [qsAdd, hkeep]]
  rw [foldl_qsAdd_skip _ _ _ h2, lookupQS_qsSet_self]

/-! Inversion lemmas for the validator. -/

lemma validate_zstr_inv (v w : JSValue)
    (h : validate (ZType.scalar ZScalar.zstr) v = some w) :
    ∃ s, v = JSValue.str s ∧ w = JSValue.str s := by
  cases v <;> simp only [validate, validateScalar] at h <;> first
    | (cases h; exact ⟨_, rfl, rfl⟩)
    | cases h

lemma validate_znum_inv (v w : JSValue)
    (h : validate (ZType.scalar ZScalar.znum) v = some w) :
    ∃ n, v = JSValue.num n ∧ w = JSValue.num n := by
  cases v <;> simp only [validate, validateScalar] at h <;> first
    | (cases h; exact ⟨_, rfl, rfl⟩)
    | cases h

lemma isUndef_iff (v : JSValue) : isUndef v = true ↔ v = JSValue.undef := by
  cases v <;> simp [isUndef]

/-- Full inversion of one validation step on a declared field list. -/
lemma validateFields_cons_inv (name : String) (ty : ZType) (opt : Bool)
    (dflt : Option JSValue) (rest : List ZField) (o w : List (String × JSValue))
    (h : validateFields ((name, ty, opt, dflt) :: rest) o = some w) :
    (getProp o name = JSValue.undef ∧ opt = true ∧
      ((∃ d w', dflt = some d ∧ validateFields rest o = some w' ∧
          w = (name, d) :: w') ∨
       (dflt = none ∧ validateFields rest o = some w))) ∨
    (∃ v', validate ty (getProp o name) = some v' ∧
      getProp o name ≠ JSValue.undef ∧
      ∃ w', validateFields rest o = some w' ∧ w = (name, v') :: w') := by
  rw [validateFields] at h
  by_cases hu : isUndef (getProp o name) = true
  · rw [if_pos hu] at h
    left
    have hgp := (isUndef_iff _).mp hu
    refine ⟨hgp, ?_, ?_⟩
    · by_contra hopt
      simp only [Bool.not_eq_true] at hopt
      rw [hopt] at h
      simp at h
    · have hopt : opt = true := by
        by_contra hopt
        simp only [Bool.not_eq_true] at hopt
        rw [hopt] at h
        simp at h
      rw [hopt] at h
      rw [if_pos rfl] at h
      cases dflt with
      | some d =>
        left
        simp only [Option.elim, Option.map_eq_some'] at h
        obtain ⟨w', hw', hw⟩ := h
        exact ⟨d, w', rfl, hw', hw.symm⟩
      | none =>
        right
        simp only [Option.elim] at h
        exact ⟨rfl, h⟩
  · rw [if_neg hu] at h
    right
    simp only [Option.bind_eq_some, Option.map_eq_some'] at h
    obtain ⟨v', hv', w', hw', hw⟩ := h
    refine ⟨v', hv', ?_, w', hw', hw.symm⟩
    intro hx
    rw [hx] at hu
    exact hu rfl

/-- The keys of a validated object are a sublist of the declared names. -/
lemma validateFields_keys_sublist (fields : List ZField)
    (o w : List (String × JSValue)) (h : validateFields fields o = some w) :
    List.Sublist (w.map (fun p => p.1)) (fields.map (fun f => f.1)) := by
  induction fields generalizing w with
  | nil =>
    rw [validateFields] at h
    cases h
    simp
  | cons f rest ih =>
    obtain ⟨name, ty, opt, dflt⟩ := f
    rcases validateFields_cons_inv _ _ _ _ _ _ _ h with
      ⟨_, _, ⟨d, w', _, hw', rfl⟩ | ⟨_, hw⟩⟩ | ⟨v', _, _, w', hw', rfl⟩
    · exact List.Sublist.cons₂ _ (ih _ hw')
    · exact List.Sublist.cons _ (ih _ hw)
    · exact List.Sublist.cons₂ _ (ih _ hw')

/-- A key not declared in the schema is absent from the validated object
(zod strips unknown keys). -/
lemma validateFields_not_mem (fields : List ZField)
    (o w : List (String × JSValue)) (h : validateFields fields o = some w)
    (name : String) (hn : name ∉ fields.map (fun f => f.1)) :
    name ∉ w.map (fun p => p.1) :=
  fun hx => hn ((validateFields_keys_sublist fields o w h).subset hx)

/-- The validated object's keys are distinct when the declared names are. -/
lemma validateFields_keys_nodup (fields : List ZField)
    (o w : List (String × JSValue)) (h : validateFields fields o = some w)
    (hnd : (fields.map (fun f => f.1)).Nodup) :
    (w.map (fun p => p.1)).Nodup :=
  (validateFields_keys_sublist fields o w h).nodup hnd

/-- A required (non-optional) declared field must be present for validation
to succeed. -/
lemma validateFields_required (fields : List ZField)
    (o w : List (String × JSValue)) (h : validateFields fields o = some w)
    (name : String) (ty : ZType) (dflt : Option JSValue)
    (hf : (name, ty, false, dflt) ∈ fields) :
    getProp o name ≠ JSValue.undef := by
  induction fields generalizing w with
  | nil => cases hf
  | cons f rest ih =>
    rcases List.mem_cons.mp hf with rfl | hmem
    · rcases validateFields_cons_inv _ _ _ _ _ _ _ h with
        ⟨_, hopt, _⟩ | ⟨_, _, hne, _⟩
      · cases hopt
      · exact hne
    · obtain ⟨name0, ty0, opt0, dflt0⟩ := f
      rcases validateFields_cons_inv _ _ _ _ _ _ _ h with
        ⟨_, _, ⟨d, w', _, hw', _⟩ | ⟨_, hw⟩⟩ | ⟨v', _, _, w', hw', _⟩
      · exact ih _ hw' hmem
      · exact ih _ hw hmem
      · exact ih _ hw' hmem

/-- Inversion for a schema whose head is the `integration_key` declaration
shared by 17 of the 18 tools. -/
lemma validateFields_ik_head (rest : List ZField)
    (o w : List (String × JSValue))
    (h : validateFields (("integration_key", ZType.scalar ZScalar.zstr, true, none) :: rest) o
      = some w) :
    (getProp o "integration_key" = JSValue.undef ∧
      validateFields rest o = some w) ∨
    (∃ k w', getProp o "integration_key" = JSValue.str k ∧
      validateFields rest o = some w' ∧
      w = ("integration_key", JSValue.str k) :: w') := by
  rcases validateFields_cons_inv _ _ _ _ _ _ _ h with
    ⟨hu, _, ⟨d, w', hd, _, _⟩ | ⟨_, hw⟩⟩ | ⟨v', hval, _, w', hw', rfl⟩
  · cases hd
  · exact Or.inl ⟨hu, hw⟩
  · obtain ⟨s, hs, rfl⟩ := validate_zstr_inv _ _ hval
    exact Or.inr ⟨s, w', hs, hw', rfl⟩

/-- Pointwise-successful validation of an array's elements succeeds with
the element results. -/
lemma mapM_validateFlatObj_of_forall (fields : List ZFlatField)
    (l : List JSValue) (g : JSValue → JSValue)
    (h : ∀ x ∈ l, validateFlatObj fields x = some (g x)) :
    l.mapM (validateFlatObj fields) = some (l.map g) := by
  induction l with
  | nil => rfl
  | cons v vs ih =>
    rw [List.mapM_cons, h v (List.mem_cons_self _ _),
      ih (fun x hx => h x (List.mem_cons_of_mem _ hx))]
    rfl

/-! Lemmas about `||` on the value shapes that occur in the handlers. -/

lemma jsOr_undef (b : JSValue) : jsOr JSValue.undef b = b := rfl

lemma jsString_str (s : String) : jsString (JSValue.str s) = s := by
  rw [jsString]

lemma jsOr_str_empty_left (b : JSValue) : jsOr (JSValue.str "") b = b := by
  simp [jsOr, truthy]

lemma jsOr_str_of_ne (s : String) (b : JSValue) (h : s ≠ "") :
    jsOr (JSValue.str s) b = JSValue.str s := by
  simp [jsOr, truthy, h]

lemma jsOr_str_empty (s : String) :
    jsOr (JSValue.str s) (JSValue.str "") = JSValue.str s := by
  by_cases h : s = ""
  · rw [h]
    exact jsOr_str_empty_left _
  · exact jsOr_str_of_ne s _ h

lemma jsOr_num (n m : Int) :
    jsOr (JSValue.num n) (JSValue.num m) =
      JSValue.num (if n = 0 then m else n) := by
  by_cases h : n = 0 <;> simp [jsOr, truthy, h]

/-! The value the built query string carries for `integration_key`. -/

/-- When the parameter list carries a non-empty explicit key (and no later
entry shadows it), the query string carries exactly that key. -/
lemma buildQuery_ik_found (dk : String) (l1 l2 : List (String × JSValue))
    (k : String) (hk : k ≠ "") (h2 : ∀ p ∈ l2, p.1 ≠ "integration_key") :
    lookupQS (buildQuery dk (l1 ++ ("integration_key", JSValue.str k) :: l2))
      "integration_key" = some k := by
  have hkeep : qKeep (JSValue.str k) = true := by simp [qKeep, hk]
  have := foldl_qsAdd_found l1 l2 "integration_key" (JSValue.str k)
    (if truthy (jsOr (getProp (l1 ++ ("integration_key", JSValue.str k) :: l2)
        "integration_key") (JSValue.str dk)) then
      qsSet [] "integration_key" (jsString (jsOr
        (getProp (l1 ++ ("integration_key", JSValue.str k) :: l2)
          "integration_key") (JSValue.str dk))) else [])
    hkeep (fun p hp hname => absurd hname (h2 p hp))
  simpa [buildQuery, jsString_str] using this

/-- When every `integration_key` entry of the parameter list is filtered out
(absent, `undefined` or empty), the query string carries the default key, or
nothing when the default is empty. -/
lemma buildQuery_ik_default (dk : String) (params : List (String × JSValue))
    (h : ∀ p ∈ params, p.1 = "integration_key" → qKeep p.2 = false)
    (hg : getProp params "integration_key" = JSValue.undef ∨
      getProp params "integration_key" = JSValue.str "") :
    lookupQS (buildQuery dk params) "integration_key" =
      if dk = "" then none else some dk := by
  have hkey : jsOr (getProp params "integration_key") (JSValue.str dk) =
      JSValue.str dk := by
    rcases hg with hg | hg <;> rw [hg]
    · rfl
    · exact jsOr_str_empty_left _
  unfold buildQuery
  rw [hkey, foldl_qsAdd_skip _ _ _ h]
  by_cases hdk : dk = ""
  · rw [show truthy (JSValue.str dk) = false by simp [truthy, hdk], if_neg
      (by simp), if_pos hdk]
    rfl
  · rw [show truthy (JSValue.str dk) = true by simp [truthy, hdk], if_pos rfl,
      if_neg hdk, jsString_str, qsSet_nil, lookupQS_cons, if_pos rfl]

/-! Glue lemmas about tool invocation. -/

/-- A successful invocation means validation succeeded and the handler ran
on the validated parameters. -/
lemma toolInvoke_inv (cfg : Config) (t : ToolDef) (args : JSValue)
    (net : OutboundRequest → NetResult) (p : OutboundRequest × ToolResult)
    (hp : toolInvoke cfg t args net = some p) :
    ∃ vp, validateTop t.fields args = some vp ∧ t.handler cfg vp net = p := by
  simpa [toolInvoke, Option.map_eq_some'] using hp

lemma validateFields_nil_inv (o w : List (String × JSValue))
    (h : validateFields [] o = some w) : w = [] := by
  rw [validateFields] at h
  cases h
  rfl

/-- Every registered handler returns as its text content exactly the
serialized value the HTTP helper produced for the request it sent. -/
lemma toolOutput_eq (i : Fin tools.length) (cfg : Config) (args : JSValue)
    (net : OutboundRequest → NetResult) (p : OutboundRequest × ToolResult)
    (hp : toolInvoke cfg (tools.get i) args net = some p) :
    p.2 = ToolResult.mk [ContentItem.textItem (toText (handleResp (net p.1)))] := by
  obtain ⟨vp, hv, hp2⟩ := toolInvoke_inv _ _ _ _ _ hp
  subst hp2
  fin_cases i <;> rfl

/-- A response whose body parses is returned as-is by the helper. -/
lemma handleResp_ok_parse (st : Nat) (text : String) (v : JSValue)
    (h : parseJSON text = some v) : handleResp (NetResult.ok st text) = v := by
  rw [handleResp, h]

/-- Reading any field other than `integration_key` of a POST body sees the
parameter object unchanged. -/
lemma buildBody_getProp_ne_ik (dk : String) (params : List (String × JSValue))
    (k : String) (hk : k ≠ "integration_key") :
    jGet (buildBody dk params) k = getProp params k := by
  unfold buildBody
  by_cases hc : (truthy (jsOr (getProp params "integration_key")
      (JSValue.str dk)) && !truthy (getProp params "integration_key")) = true
  · rw [if_pos hc]
    exact setProp_getProp_ne params _ k _ hk
  · rw [if_neg hc]
    rfl

/-! The claims. -/

/-- C4: for every tool, an invocation that omits a required parameter fails
schema validation before dispatch: the invocation yields no result pair at
all, in particular no outbound request is built, so the backend receives
zero requests for it. -/
theorem missing_required_param_no_request (i : Fin tools.length) (cfg : Config)
    (o : List (String × JSValue)) (name : String) (ty : ZType)
    (dflt : Option JSValue) (net : OutboundRequest → NetResult)
    (hf : (name, ty, false, dflt) ∈ (tools.get i).fields)
    (ho : getProp o name = JSValue.undef) :
    toolInvoke cfg (tools.get i) (JSValue.obj o) net = none := by
  unfold toolInvoke
  have hvt : validateTop (tools.get i).fields (JSValue.obj o) =
      validateFields (tools.get i).fields o := rfl
  rw [hvt]
  cases hw : validateFields (tools.get i).fields o with
  | none => rfl
  | some w =>
    exact absurd ho (validateFields_required _ _ _ hw _ _ _ hf)

/-- Witness for C4: invoking `search_shipments` without `q` is rejected
before any request. -/
theorem missing_required_param_no_request_witness :
    toolInvoke cfg0 (tools.get ⟨2, by decide⟩) (JSValue.obj []) netDown = none :=
  missing_required_param_no_request ⟨2, by decide⟩ cfg0 [] "q"
    (ZType.scalar ZScalar.zstr) none
    netDown (List.Mem.tail _ (List.Mem.head _)) rfl

/-- C5: a response body that does not parse as JSON never makes a call
throw: the helper returns the structured error object whose `raw` field is
exactly the first 500 characters of the body (the whole body when it is
shorter), and every tool invocation then returns that object serialized as
its text output. -/
theorem nonjson_body_structured_error (cfg : Config) (endpoint : String)
    (params : List (String × JSValue)) (method : Method) (st : Nat)
    (text : String) (hp : parseJSON text = none) :
    (shipiRequest cfg endpoint params method (fun _ => NetResult.ok st text)).2 =
      JSValue.obj [("status", JSValue.str "error"),
        ("message", JSValue.str "Invalid JSON response"),
        ("raw", JSValue.str (strTake text 500))] ∧
    (text.length ≤ 500 → strTake text 500 = text) ∧
    (∀ (i : Fin tools.length) (args : JSValue) (p : OutboundRequest × ToolResult),
      toolInvoke cfg (tools.get i) args (fun _ => NetResult.ok st text) = some p →
      p.2 = ToolResult.mk [ContentItem.textItem (toText (JSValue.obj
        [("status", JSValue.str "error"),
         ("message", JSValue.str "Invalid JSON response"),
         ("raw", JSValue.str (strTake text 500))]))]) := by
  have herr : handleResp (NetResult.ok st text) =
      JSValue.obj [("status", JSValue.str "error"),
        ("message", JSValue.str "Invalid JSON response"),
        ("raw", JSValue.str (strTake text 500))] := by
    rw [handleResp, hp]
  refine ⟨herr, ?_, ?_⟩
  · intro hlen
    unfold strTake
    rw [List.take_of_length_le hlen]
  · intro i args p hp2
    rw [toolOutput_eq i cfg args _ p hp2, herr]

/-- Witness for C5: the backend body `<html>error</html>` yields the
structured error carrying the whole (shorter than 500 characters) body. -/
theorem nonjson_body_structured_error_witness :
    (shipiRequest cfg0 "api/v1/shipments.php" [] Method.get
        (fun _ => NetResult.ok 200 "<html>error</html>")).2 =
      JSValue.obj [("status", JSValue.str "error"),
        ("message", JSValue.str "Invalid JSON response"),
        ("raw", JSValue.str "<html>error</html>")] := by
  have h := nonjson_body_structured_error cfg0 "api/v1/shipments.php" []
    Method.get 200 "<html>error</html>" rfl
  rw [h.1]
  rfl

/-- C6: a network-level failure (any exception from the network layer) is
caught inside the HTTP helper and every tool returns the structured
`{status:"error", message:"Request failed: ..."}` object serialized as its
result instead of propagating the exception. -/
theorem network_failure_returns_structured_error (i : Fin tools.length)
    (cfg : Config) (args : JSValue) (vp : List (String × JSValue)) (msg : String)
    (hv : validateTop (tools.get i).fields args = some vp) :
    (toolInvoke cfg (tools.get i) args (fun _ => NetResult.exc msg)).map
        (fun p => p.2) =
      some (ToolResult.mk [ContentItem.textItem (toText (JSValue.obj
        [("status", JSValue.str "error"),
         ("message", JSValue.str ("Request failed: " ++ msg))]))]) := by
  have hp : toolInvoke cfg (tools.get i) args (fun _ => NetResult.exc msg) =
      some ((tools.get i).handler cfg vp (fun _ => NetResult.exc msg)) := by
    unfold toolInvoke
    rw [hv]
    rfl
  rw [hp]
  have hout := toolOutput_eq i cfg args (fun _ => NetResult.exc msg) _ hp
  rw [Option.map_some', hout]
  rfl

/-- Witness for C6: a failing network call to `list_shipments` surfaces the
structured error result. -/
theorem network_failure_returns_structured_error_witness :
    (toolInvoke cfg0 (tools.get ⟨0, by decide⟩) (JSValue.obj [])
        (fun _ => NetResult.exc "ECONNREFUSED")).map (fun p => p.2) =
      some (ToolResult.mk [ContentItem.textItem (toText (JSValue.obj
        [("status", JSValue.str "error"),
         ("message", JSValue.str ("Request failed: " ++ "ECONNREFUSED"))]))]) :=
  network_failure_returns_structured_error ⟨0, by decide⟩ cfg0 (JSValue.obj [])
    [("page", JSValue.num 1), ("per_page", JSValue.num 20)] "ECONNREFUSED"
    (by
      show validateTop list_shipments_fields (JSValue.obj []) =
        some [("page", JSValue.num 1), ("per_page", JSValue.num 20)]
      simp [validateTop, list_shipments_fields, validateFields, getProp_nil,
        isUndef, Option.elim])

/-- C8: for every tool, the text output is exactly the object returned by
the HTTP client, success payload or structured error, serialized as
indented text with no local reinterpretation; in particular a backend
response with a fixed JSON body yields that body's parsed value serialized
verbatim. -/
theorem tool_output_serializes_client_value (i : Fin tools.length) (cfg : Config)
    (args : JSValue) (net : OutboundRequest → NetResult)
    (p : OutboundRequest × ToolResult)
    (hp : toolInvoke cfg (tools.get i) args net = some p) :
    p.2 = ToolResult.mk [ContentItem.textItem (toText (handleResp (net p.1)))] ∧
    (∀ (st : Nat) (text : String) (v : JSValue), net p.1 = NetResult.ok st text →
      parseJSON text = some v →
      p.2 = ToolResult.mk [ContentItem.textItem (toText v)]) := by
  refine ⟨toolOutput_eq i cfg args net p hp, ?_⟩
  intro st text v hnet hparse
  rw [toolOutput_eq i cfg args net p hp, hnet, handleResp_ok_parse st text v hparse]

/-- Witness for C8: `get_account_info` against a backend answering
`{"ok":true}` outputs exactly that object serialized with 2-space
indentation. -/
theorem tool_output_serializes_client_value_witness :
    (toolInvoke cfg0 (tools.get ⟨16, by decide⟩) (JSValue.obj [])
        (fun _ => NetResult.ok 200 "\x7b\"ok\":true\x7d")).map (fun p => p.2) =
      some (ToolResult.mk [ContentItem.textItem "\x7b\n  \"ok\": true\n\x7d"]) := by
  have hv : validateTop (tools.get ⟨16, by decide⟩).fields (JSValue.obj []) =
      some [] := by
    show validateTop get_account_info_fields (JSValue.obj []) = some []
    simp [validateTop, get_account_info_fields, validateFields, getProp_nil,
      isUndef]
  have hp : toolInvoke cfg0 (tools.get ⟨16, by decide⟩) (JSValue.obj [])
      (fun _ => NetResult.ok 200 "\x7b\"ok\":true\x7d") =
      some ((tools.get ⟨16, by decide⟩).handler cfg0 []
        (fun _ => NetResult.ok 200 "\x7b\"ok\":true\x7d")) := by
    unfold toolInvoke
    rw [hv]
    rfl
  have h := (tool_output_serializes_client_value ⟨16, by decide⟩ cfg0
    (JSValue.obj []) _ _ hp).2 200 "\x7b\"ok\":true\x7d"
    (JSValue.obj [("ok", JSValue.bool true)]) rfl rfl
  rw [hp, Option.map_some', h]
  rfl

/-- C10: the HTTP client never consults the response's HTTP status code:
the returned value is the same for any two statuses with the same body, a
body that parses as JSON is returned as the result exactly as a success
even for 4xx/5xx statuses, and each tool then serializes it as its output;
the only distinctions the layer draws are network failure and a non-JSON
body. -/
theorem http_status_code_ignored (cfg : Config) (endpoint : String)
    (params : List (String × JSValue)) (method : Method) (st st' : Nat)
    (text : String) :
    (shipiRequest cfg endpoint params method (fun _ => NetResult.ok st text)).2 =
      (shipiRequest cfg endpoint params method
        (fun _ => NetResult.ok st' text)).2 ∧
    (∀ v, parseJSON text = some v →
      (shipiRequest cfg endpoint params method
        (fun _ => NetResult.ok st text)).2 = v) ∧
    (∀ (i : Fin tools.length) (args : JSValue) (p : OutboundRequest × ToolResult)
      (v : JSValue),
      toolInvoke cfg (tools.get i) args (fun _ => NetResult.ok st text) = some p →
      parseJSON text = some v →
      p.2 = ToolResult.mk [ContentItem.textItem (toText v)]) := by
  refine ⟨rfl, ?_, ?_⟩
  · intro v hv
    exact handleResp_ok_parse st text v hv
  · intro i args p v hp hv
    rw [toolOutput_eq i cfg args _ p hp, handleResp_ok_parse st text v hv]

/-- Witness for C10: a 500 response with a JSON body is returned exactly as
a success payload. -/
theorem http_status_code_ignored_witness :
    (shipiRequest cfg0 "api/v1/account.php" [] Method.get
        (fun _ => NetResult.ok 500 "\x7b\"err\":\"boom\"\x7d")).2 =
      JSValue.obj [("err", JSValue.str "boom")] :=
  (http_status_code_ignored cfg0 "api/v1/account.php" [] Method.get 500 200
    "\x7b\"err\":\"boom\"\x7d").2.1 (JSValue.obj [("err", JSValue.str "boom")]) rfl

/-- C3: every `cancel_shipment` invocation with `shipment_id` `n` sends a
POST body carrying `del_ref` with value `n` and no `shipment_id` field. -/
theorem cancel_shipment_renames_shipment_id (cfg : Config) (raw : JSValue)
    (n : Int) (net : OutboundRequest → NetResult)
    (p : OutboundRequest × ToolResult)
    (hp : toolInvoke cfg cancel_shipmentTool raw net = some p)
    (hn : jGet raw "shipment_id" = JSValue.num n) :
    reqBodyProp p.1 "del_ref" = JSValue.num n ∧
    reqBodyProp p.1 "shipment_id" = JSValue.undef := by
  obtain ⟨vp, hv, hp2⟩ := toolInvoke_inv _ _ _ _ _ hp
  cases raw with
  | undef => cases hv
  | null => cases hv
  | bool b => cases hv
  | num m => cases hv
  | str s => cases hv
  | arr es => cases hv
  | obj o =>
    have hvf : validateFields cancel_shipment_fields o = some vp := hv
    have hno : getProp o "shipment_id" = JSValue.num n := hn
    have hsid : getProp vp "shipment_id" = JSValue.num n := by
      rcases validateFields_ik_head _ _ _ hvf with ⟨_, hrest⟩ | ⟨k, w', _, hrest, hw⟩
      · rcases validateFields_cons_inv _ _ _ _ _ _ _ hrest with
          ⟨_, hopt, _⟩ | ⟨v', hval, _, w'', hw'', hweq⟩
        · cases hopt
        · obtain ⟨m, hm, hvm⟩ := validate_znum_inv _ _ hval
          have hmn : JSValue.num m = JSValue.num n := hm.symm.trans hno
          cases hmn
          rw [hweq, hvm, getProp_cons, if_pos rfl]
      · rcases validateFields_cons_inv _ _ _ _ _ _ _ hrest with
          ⟨_, hopt, _⟩ | ⟨v', hval, _, w'', hw'', hweq⟩
        · cases hopt
        · obtain ⟨m, hm, hvm⟩ := validate_znum_inv _ _ hval
          have hmn : JSValue.num m = JSValue.num n := hm.symm.trans hno
          cases hmn
          rw [hw, getProp_cons, if_neg (by decide), hweq, hvm, getProp_cons,
            if_pos rfl]
    subst hp2
    constructor
    · show jGet (buildBody cfg.defaultKey
        [("integrated_key", jsOr (getProp vp "integration_key")
          (JSValue.str cfg.defaultKey)),
         ("del_ref", getProp vp "shipment_id")]) "del_ref" = JSValue.num n
      rw [buildBody_getProp_ne_ik _ _ _ (by decide), getProp_cons,
        if_neg (by decide), getProp_cons, if_pos rfl, hsid]
    · show jGet (buildBody cfg.defaultKey
        [("integrated_key", jsOr (getProp vp "integration_key")
          (JSValue.str cfg.defaultKey)),
         ("del_ref", getProp vp "shipment_id")]) "shipment_id" = JSValue.undef
      rw [buildBody_getProp_ne_ik _ _ _ (by decide), getProp_cons,
        if_neg (by decide), getProp_cons, if_neg (by decide), getProp_nil]

/-- Witness for C3: cancelling shipment 42 sends `del_ref: 42` and no
`shipment_id`. -/
theorem cancel_shipment_renames_shipment_id_witness :
    (toolInvoke cfg0 cancel_shipmentTool
        (JSValue.obj [("shipment_id", JSValue.num 42)]) netDown).map
      (fun p => (reqBodyProp p.1 "del_ref", reqBodyProp p.1 "shipment_id")) =
      some (JSValue.num 42, JSValue.undef) := by
  have hv : validateTop cancel_shipmentTool.fields
      (JSValue.obj [("shipment_id", JSValue.num 42)]) =
      some [("shipment_id", JSValue.num 42)] := by
    show validateTop cancel_shipment_fields
      (JSValue.obj [("shipment_id", JSValue.num 42)]) = _
    simp [validateTop, cancel_shipment_fields, validateFields, getProp_nil,
      getProp_cons, isUndef, validate, validateScalar, Option.elim]
  have hp : toolInvoke cfg0 cancel_shipmentTool
      (JSValue.obj [("shipment_id", JSValue.num 42)]) netDown =
      some (cancel_shipmentTool.handler cfg0
        [("shipment_id", JSValue.num 42)] netDown) := by
    unfold toolInvoke
    rw [hv]
    rfl
  have h := cancel_shipment_renames_shipment_id cfg0 _ 42 netDown _ hp rfl
  rw [hp, Option.map_some', h.1, h.2]

/-! Evaluation lemmas for `create_shipment` and `get_shipping_rates`
invocations whose fields are all explicitly present. -/

/-- An explicitly present, correctly typed product passes validation
unchanged. -/
lemma validateFlatObj_mkProdArg (x : ProdVals) :
    validateFlatObj productFields (mkProdArg x) = some (mkProdArg x) := rfl

/-- A product list of explicit products passes validation unchanged. -/
lemma mapM_mkProdArg (prods : List ProdVals) :
    (prods.map mkProdArg).mapM (validateFlatObj productFields) =
      some (prods.map mkProdArg) := by
  have h := mapM_validateFlatObj_of_forall productFields (prods.map mkProdArg)
    id (fun y hy => by
      obtain ⟨x, _, rfl⟩ := List.mem_map.mp hy
      rfl)
  simpa using h

/-- The same statement in the unfolded accumulator form `simp` produces. -/
lemma mapM_loop_mkProdArg (prods : List ProdVals) :
    List.mapM.loop (validateFlatObj productFields) (prods.map mkProdArg) [] =
      some (prods.map mkProdArg) :=
  mapM_mkProdArg prods

/-- The handlers' product mapping sends an explicit product to its
`mappedProd` entry. -/
lemma prod_entry_eval (x : ProdVals) :
    JSValue.obj
      [("prod_name", jsOr (jGet (mkProdArg x) "name") (JSValue.str "Package")),
       ("prod_weight", jGet (mkProdArg x) "weight"),
       ("prod_quantity", jsOr (jGet (mkProdArg x) "quantity") (JSValue.num 1)),
       ("prod_price", jsOr (jGet (mkProdArg x) "price") (JSValue.num 0)),
       ("prod_depth", jsOr (jGet (mkProdArg x) "length") (JSValue.num 1)),
       ("prod_width", jsOr (jGet (mkProdArg x) "width") (JSValue.num 1)),
       ("prod_height", jsOr (jGet (mkProdArg x) "height") (JSValue.num 1))] =
    mappedProd x := by
  have hname : jsOr (JSValue.str x.nm) (JSValue.str "Package") =
      JSValue.str (if x.nm = "" then "Package" else x.nm) := by
    by_cases h : x.nm = ""
    · rw [h, if_pos rfl]
      exact jsOr_str_empty_left _
    · rw [if_neg h]
      exact jsOr_str_of_ne _ _ h
  simp [mkProdArg, mappedProd, jGet, getProp_cons, jsOr_num, hname]

/-- The handlers' product mapping sends a list of explicit products to
their `mappedProd` entries. -/
lemma jsMap_prodFn (prods : List ProdVals) :
    jsMap (JSValue.arr (prods.map mkProdArg)) (fun p => JSValue.obj
      [("prod_name", jsOr (jGet p "name") (JSValue.str "Package")),
       ("prod_weight", jGet p "weight"),
       ("prod_quantity", jsOr (jGet p "quantity") (JSValue.num 1)),
       ("prod_price", jsOr (jGet p "price") (JSValue.num 0)),
       ("prod_depth", jsOr (jGet p "length") (JSValue.num 1)),
       ("prod_width", jsOr (jGet p "width") (JSValue.num 1)),
       ("prod_height", jsOr (jGet p "height") (JSValue.num 1))]) =
    JSValue.arr (prods.map mappedProd) := by
  simp only [jsMap, List.map_map]
  congr 1
  exact List.map_congr_left (fun x _ => prod_entry_eval x)

/-- Validation of a fully explicit `create_shipment` argument object. -/
lemma validateTop_createArgsAll (cid : Int) (sc : String) (sh re : AddrVals)
    (prods : List ProdVals) :
    validateTop create_shipment_fields (createArgsAll cid sc sh re prods) =
      some (createVp cid sc sh re prods) := by
  show validateFields create_shipment_fields _ = _
  simp only [create_shipment_fields, validateFields, createArgsAll,
    getProp_cons, getProp_nil, isUndef, validate, validateScalar,
    validateFlatObj, Option.elim]
  simp [createVp, validateFlatFields, getProp_cons, getProp_nil, isUndef,
    validateScalar, Option.elim, mkAddrArg, mapM_loop_mkProdArg]

/-- A fully explicit `create_shipment` invocation runs the handler on the
passed-through parameter object. -/
lemma create_invoke_eval (cfg : Config) (net : OutboundRequest → NetResult)
    (cid : Int) (sc : String) (sh re : AddrVals) (prods : List ProdVals) :
    toolInvoke cfg create_shipmentTool (createArgsAll cid sc sh re prods) net =
      some (create_shipment_handler cfg (createVp cid sc sh re prods) net) := by
  unfold toolInvoke
  rw [show validateTop create_shipmentTool.fields
      (createArgsAll cid sc sh re prods) = some (createVp cid sc sh re prods)
    from validateTop_createArgsAll cid sc sh re prods]
  rfl

/-- The `meta` object built by `create_shipment` for fully explicit
arguments: addresses flattened to `s_*`/`t_*`, `length` renamed to
`prod_depth`, falsy numeric fields defaulted. -/
lemma create_meta_eval (cfg : Config) (net : OutboundRequest → NetResult)
    (cid : Int) (sc : String) (sh re : AddrVals) (prods : List ProdVals) :
    reqBodyProp (create_shipment_handler cfg (createVp cid sc sh re prods)
        net).1 "meta" =
      JSValue.obj
        [("label", JSValue.str "d"),
         ("s_name", JSValue.str sh.nm), ("s_company", JSValue.str sh.co),
         ("s_address1", JSValue.str sh.a1), ("s_address2", JSValue.str sh.a2),
         ("s_city", JSValue.str sh.ci), ("s_state", JSValue.str sh.st),
         ("s_postal", JSValue.str sh.po), ("s_country", JSValue.str sh.cy),
         ("s_phone", JSValue.str sh.ph), ("s_email", JSValue.str sh.em),
         ("t_name", JSValue.str re.nm), ("t_company", JSValue.str re.co),
         ("t_address1", JSValue.str re.a1), ("t_address2", JSValue.str re.a2),
         ("t_city", JSValue.str re.ci), ("t_state", JSValue.str re.st),
         ("t_postal", JSValue.str re.po), ("t_country", JSValue.str re.cy),
         ("t_phone", JSValue.str re.ph), ("t_email", JSValue.str re.em),
         ("service_code", JSValue.str sc),
         ("carrier_id", JSValue.num cid),
         ("products", JSValue.arr (prods.map mappedProd))] := by
  show jGet (buildBody cfg.defaultKey _) "meta" = _
  rw [buildBody_getProp_ne_ik _ _ _ (by decide)]
  rw [getProp_cons, if_neg (by decide), getProp_cons, if_pos rfl]
  simp only [createVp]
  simp [getProp_cons, getProp_nil, jsMap_prodFn]
  simp [mkAddrArg, jGet, getProp_cons, getProp_nil, jsOr_str_empty]

/-- Validation of an explicit `get_shipping_rates` argument object. -/
lemma validateTop_ratesArgs (ra : AddrVals) (prods : List ProdVals) :
    validateTop get_shipping_rates_fields (ratesArgs ra prods) =
      some [("receiver_address", JSValue.obj
              [("name", JSValue.str ra.nm), ("address1", JSValue.str ra.a1),
               ("address2", JSValue.str ra.a2), ("city", JSValue.str ra.ci),
               ("state", JSValue.str ra.st), ("postal", JSValue.str ra.po),
               ("country", JSValue.str ra.cy)]),
            ("products", JSValue.arr (prods.map mkProdArg))] := by
  show validateFields get_shipping_rates_fields _ = _
  simp only [get_shipping_rates_fields, validateFields, ratesArgs,
    getProp_cons, getProp_nil, isUndef, validate, validateScalar,
    validateFlatObj, Option.elim, mapM_mkProdArg]
  simp [validateFlatFields, ratesAddressFields, getProp_cons, getProp_nil,
    isUndef, validateScalar, Option.elim, mapM_loop_mkProdArg]

/-- An explicit `get_shipping_rates` invocation runs the handler on the
passed-through parameter object. -/
lemma rates_invoke_eval (cfg : Config) (net : OutboundRequest → NetResult)
    (ra : AddrVals) (prods : List ProdVals) :
    toolInvoke cfg get_shipping_ratesTool (ratesArgs ra prods) net =
      some (get_shipping_rates_handler cfg
        [("receiver_address", JSValue.obj
           [("name", JSValue.str ra.nm), ("address1", JSValue.str ra.a1),
            ("address2", JSValue.str ra.a2), ("city", JSValue.str ra.ci),
            ("state", JSValue.str ra.st), ("postal", JSValue.str ra.po),
            ("country", JSValue.str ra.cy)]),
         ("products", JSValue.arr (prods.map mkProdArg))] net) := by
  unfold toolInvoke
  rw [show validateTop get_shipping_ratesTool.fields (ratesArgs ra prods) =
      some [("receiver_address", JSValue.obj
              [("name", JSValue.str ra.nm), ("address1", JSValue.str ra.a1),
               ("address2", JSValue.str ra.a2), ("city", JSValue.str ra.ci),
               ("state", JSValue.str ra.st), ("postal", JSValue.str ra.po),
               ("country", JSValue.str ra.cy)]),
            ("products", JSValue.arr (prods.map mkProdArg))]
    from validateTop_ratesArgs ra prods]
  rfl

/-- The `products` field of the body `get_shipping_rates` sends. -/
lemma rates_products_eval (cfg : Config) (net : OutboundRequest → NetResult)
    (ra : AddrVals) (prods : List ProdVals) :
    reqBodyProp ((get_shipping_rates_handler cfg
        [("receiver_address", JSValue.obj
           [("name", JSValue.str ra.nm), ("address1", JSValue.str ra.a1),
            ("address2", JSValue.str ra.a2), ("city", JSValue.str ra.ci),
            ("state", JSValue.str ra.st), ("postal", JSValue.str ra.po),
            ("country", JSValue.str ra.cy)]),
         ("products", JSValue.arr (prods.map mkProdArg))] net).1) "products" =
      JSValue.arr (prods.map mappedProd) := by
  show jGet (buildBody cfg.defaultKey _) "products" = _
  rw [buildBody_getProp_ne_ik _ _ _ (by decide)]
  rw [getProp_cons, if_neg (by decide), getProp_cons, if_neg (by decide),
    getProp_cons, if_pos rfl]
  simp [getProp_cons, getProp_nil, jsMap_prodFn]

/-- C2: a `create_shipment` invocation with shipper `{name:"Jane",
address1:"1 Main", city:"NYC", state:"NY", postal:"10001", country:"US"}`
and the single product `{weight:5}` sends a POST body whose `meta` carries
`s_name:"Jane"`, `s_city:"NYC"` and one product entry with `prod_weight:5`
and `prod_quantity:1` (the schema default, since `quantity` was omitted);
in general the shipper/recipient objects are flattened to `s_*`/`t_*`
fields and `products[].length` is renamed to `prod_depth`. -/
theorem create_shipment_flattens_fields (cfg : Config)
    (net : OutboundRequest → NetResult) (cid : Int) (re : AddrVals) :
    ((toolInvoke cfg create_shipmentTool (JSValue.obj
        [("carrier_id", JSValue.num cid),
         ("shipper", JSValue.obj
           [("name", JSValue.str "Jane"), ("address1", JSValue.str "1 Main"),
            ("city", JSValue.str "NYC"), ("state", JSValue.str "NY"),
            ("postal", JSValue.str "10001"), ("country", JSValue.str "US")]),
         ("recipient", mkAddrArg re),
         ("products", JSValue.arr [JSValue.obj [("weight", JSValue.num 5)]])])
        net).map (fun p =>
          (jGet (reqBodyProp p.1 "meta") "s_name",
           jGet (reqBodyProp p.1 "meta") "s_city",
           jGet (reqBodyProp p.1 "meta") "products")) =
      some (JSValue.str "Jane", JSValue.str "NYC", JSValue.arr
        [JSValue.obj
          [("prod_name", JSValue.str "Package"), ("prod_weight", JSValue.num 5),
           ("prod_quantity", JSValue.num 1), ("prod_price", JSValue.num 0),
           ("prod_depth", JSValue.num 1), ("prod_width", JSValue.num 1),
           ("prod_height", JSValue.num 1)]])) ∧
    (∀ (sc : String) (sh : AddrVals) (prods : List ProdVals),
      (toolInvoke cfg create_shipmentTool (createArgsAll cid sc sh re prods)
          net).map (fun p => reqBodyProp p.1 "meta") =
        some (JSValue.obj
          [("label", JSValue.str "d"),
           ("s_name", JSValue.str sh.nm), ("s_company", JSValue.str sh.co),
           ("s_address1", JSValue.str sh.a1), ("s_address2", JSValue.str sh.a2),
           ("s_city", JSValue.str sh.ci), ("s_state", JSValue.str sh.st),
           ("s_postal", JSValue.str sh.po), ("s_country", JSValue.str sh.cy),
           ("s_phone", JSValue.str sh.ph), ("s_email", JSValue.str sh.em),
           ("t_name", JSValue.str re.nm), ("t_company", JSValue.str re.co),
           ("t_address1", JSValue.str re.a1), ("t_address2", JSValue.str re.a2),
           ("t_city", JSValue.str re.ci), ("t_state", JSValue.str re.st),
           ("t_postal", JSValue.str re.po), ("t_country", JSValue.str re.cy),
           ("t_phone", JSValue.str re.ph), ("t_email", JSValue.str re.em),
           ("service_code", JSValue.str sc), ("carrier_id", JSValue.num cid),
           ("products", JSValue.arr (prods.map mappedProd))])) := by
  constructor
  · have hv : validateTop create_shipmentTool.fields (JSValue.obj
        [("carrier_id", JSValue.num cid),
         ("shipper", JSValue.obj
           [("name", JSValue.str "Jane"), ("address1", JSValue.str "1 Main"),
            ("city", JSValue.str "NYC"), ("state", JSValue.str "NY"),
            ("postal", JSValue.str "10001"), ("country", JSValue.str "US")]),
         ("recipient", mkAddrArg re),
         ("products", JSValue.arr [JSValue.obj [("weight", JSValue.num 5)]])]) =
        some (createVp cid ""
          ⟨"Jane", "", "1 Main", "", "NYC", "NY", "10001", "US", "", ""⟩ re
          [⟨"Package", 5, 1, 0, 1, 1, 1⟩]) := rfl
    have hp : toolInvoke cfg create_shipmentTool (JSValue.obj
        [("carrier_id", JSValue.num cid),
         ("shipper", JSValue.obj
           [("name", JSValue.str "Jane"), ("address1", JSValue.str "1 Main"),
            ("city", JSValue.str "NYC"), ("state", JSValue.str "NY"),
            ("postal", JSValue.str "10001"), ("country", JSValue.str "US")]),
         ("recipient", mkAddrArg re),
         ("products", JSValue.arr [JSValue.obj [("weight", JSValue.num 5)]])])
        net = some (create_shipment_handler cfg (createVp cid ""
          ⟨"Jane", "", "1 Main", "", "NYC", "NY", "10001", "US", "", ""⟩ re
          [⟨"Package", 5, 1, 0, 1, 1, 1⟩]) net) := by
      unfold toolInvoke
      rw [hv]
      rfl
    rw [hp, Option.map_some', create_meta_eval]
    rfl
  · intro sc sh prods
    rw [create_invoke_eval, Option.map_some', create_meta_eval]

/-- An `if`-defaulted positive-or-original value is never zero. -/
lemma ite_default_ne_zero (q : Int) : (if q = 0 then (1 : Int) else q) ≠ 0 := by
  by_cases h : q = 0 <;> simp [h]

/-- C9: in `create_shipment` and `get_shipping_rates` the product-field
defaults apply to every falsy numeric value, not only omitted ones: an
explicit `quantity` 0 is sent as `prod_quantity` 1, explicit
`length`/`width`/`height` 0 are sent as `prod_depth`/`prod_width`/
`prod_height` 1, while an explicit `price` 0 stays 0; hence a zero quantity
or zero dimension never reaches the backend. -/
theorem product_falsy_zero_defaults (cfg : Config)
    (net : OutboundRequest → NetResult) (cid : Int) (sc : String)
    (sh re ra : AddrVals) (nm : String) (w : Int) (prods : List ProdVals) :
    ((toolInvoke cfg create_shipmentTool
        (createArgsAll cid sc sh re [⟨nm, w, 0, 0, 0, 0, 0⟩]) net).map
        (fun p => jGet (reqBodyProp p.1 "meta") "products") =
      some (JSValue.arr [JSValue.obj
        [("prod_name", JSValue.str (if nm = "" then "Package" else nm)),
         ("prod_weight", JSValue.num w), ("prod_quantity", JSValue.num 1),
         ("prod_price", JSValue.num 0), ("prod_depth", JSValue.num 1),
         ("prod_width", JSValue.num 1), ("prod_height", JSValue.num 1)]])) ∧
    ((toolInvoke cfg get_shipping_ratesTool
        (ratesArgs ra [⟨nm, w, 0, 0, 0, 0, 0⟩]) net).map
        (fun p => reqBodyProp p.1 "products") =
      some (JSValue.arr [JSValue.obj
        [("prod_name", JSValue.str (if nm = "" then "Package" else nm)),
         ("prod_weight", JSValue.num w), ("prod_quantity", JSValue.num 1),
         ("prod_price", JSValue.num 0), ("prod_depth", JSValue.num 1),
         ("prod_width", JSValue.num 1), ("prod_height", JSValue.num 1)]])) ∧
    ((toolInvoke cfg create_shipmentTool (createArgsAll cid sc sh re prods)
        net).map (fun p => jGet (reqBodyProp p.1 "meta") "products") =
      some (JSValue.arr (prods.map mappedProd))) ∧
    (∀ x : ProdVals,
      jGet (mappedProd x) "prod_quantity" ≠ JSValue.num 0 ∧
      jGet (mappedProd x) "prod_depth" ≠ JSValue.num 0 ∧
      jGet (mappedProd x) "prod_width" ≠ JSValue.num 0 ∧
      jGet (mappedProd x) "prod_height" ≠ JSValue.num 0) := by
  refine ⟨?_, ?_, ?_, ?_⟩
  · rw [create_invoke_eval, Option.map_some', create_meta_eval]
    rfl
  · rw [rates_invoke_eval, Option.map_some', rates_products_eval]
    rfl
  · rw [create_invoke_eval, Option.map_some', create_meta_eval]
    rfl
  · intro x
    refine ⟨?_, ?_, ?_, ?_⟩
    · rw [show jGet (mappedProd x) "prod_quantity" =
        JSValue.num (if x.q = 0 then 1 else x.q) from rfl]
      intro h
      injection h with h2
      exact ite_default_ne_zero x.q h2
    · rw [show jGet (mappedProd x) "prod_depth" =
        JSValue.num (if x.len = 0 then 1 else x.len) from rfl]
      intro h
      injection h with h2
      exact ite_default_ne_zero x.len h2
    · rw [show jGet (mappedProd x) "prod_width" =
        JSValue.num (if x.wd = 0 then 1 else x.wd) from rfl]
      intro h
      injection h with h2
      exact ite_default_ne_zero x.wd h2
    · rw [show jGet (mappedProd x) "prod_height" =
        JSValue.num (if x.ht = 0 then 1 else x.ht) from rfl]
      intro h
      injection h with h2
      exact ite_default_ne_zero x.ht h2

/-! Lemmas about the authentication key carried by the outbound request. -/

lemma getProp_append_not_mem (l1 l2 : List (String × JSValue)) (k : String)
    (h : k ∉ l1.map (fun p => p.1)) : getProp (l1 ++ l2) k = getProp l2 k := by
  induction l1 with
  | nil => rfl
  | cons p rest ih =>
    obtain ⟨k0, v0⟩ := p
    simp only [List.map_cons, List.mem_cons] at h
    push_neg at h
    rw [List.cons_append, getProp_cons, if_neg (Ne.symm h.1)]
    exact ih h.2

lemma nodup_keys_unique (l : List (String × JSValue))
    (hnd : (l.map (fun p => p.1)).Nodup) (k : String) (v v' : JSValue)
    (h : (k, v) ∈ l) (h' : (k, v') ∈ l) : v = v' := by
  induction l with
  | nil => cases h
  | cons p rest ih =>
    obtain ⟨k0, v0⟩ := p
    simp only [List.map_cons, List.nodup_cons] at hnd
    rcases List.mem_cons.mp h with he | hm
    · rcases List.mem_cons.mp h' with he' | hm'
      · cases he
        cases he'
        rfl
      · cases he
        exact absurd (List.mem_map_of_mem (fun p => p.1) hm') hnd.1
    · rcases List.mem_cons.mp h' with he' | hm'
      · cases he'
        exact absurd (List.mem_map_of_mem (fun p => p.1) hm) hnd.1
      · exact ih hnd.2 hm hm'

lemma getD_ik_default (dk : String) :
    ((if dk = "" then none else some dk) : Option String).getD "" = dk := by
  by_cases h : dk = "" <;> simp [h]

/-- Validation passes the declared head `integration_key` field through
unchanged (present or absent) when no later field shares its name. -/
lemma validateFields_ik_getProp (rest : List ZField)
    (o vp : List (String × JSValue))
    (hvf : validateFields
      (("integration_key", ZType.scalar ZScalar.zstr, true, none) :: rest) o =
      some vp)
    (hni : "integration_key" ∉ rest.map (fun f => f.1)) :
    getProp vp "integration_key" = getProp o "integration_key" := by
  rcases validateFields_ik_head rest o vp hvf with ⟨hik, hrest⟩ |
    ⟨k, w', hik, hrest, rfl⟩
  · rw [hik]
    exact getProp_eq_undef_of_not_mem _ _
      (validateFields_not_mem rest o vp hrest _ hni)
  · rw [hik, getProp_cons, if_pos rfl]

/-- The authentication key the three `integrated_key` endpoints read from a
POST body built over a parameter list headed by that field. -/
lemma authKey_post_integrated (dk u : String) (z : JSValue)
    (rest : List (String × JSValue)) :
    reqAuthKey "integrated_key" (OutboundRequest.postReq u
        (buildBody dk (("integrated_key", z) :: rest))) =
      (match z with | JSValue.str k => k | _ => "") := by
  show (match jGet (buildBody dk (("integrated_key", z) :: rest))
      "integrated_key" with | JSValue.str k => k | _ => "") = _
  rw [buildBody_getProp_ne_ik _ _ _ (by decide), getProp_cons, if_pos rfl]

/-- The authentication key carried under `integration_key` by a POST body:
a truthy explicit entry survives, a falsy or absent one is replaced by the
default key exactly when that is non-empty. -/
lemma authKey_post_ik (dk u : String) (params : List (String × JSValue)) :
    (∀ k, getProp params "integration_key" = JSValue.str k → k ≠ "" →
      reqAuthKey "integration_key"
        (OutboundRequest.postReq u (buildBody dk params)) = k) ∧
    ((getProp params "integration_key" = JSValue.undef ∨
      getProp params "integration_key" = JSValue.str "") →
      reqAuthKey "integration_key"
        (OutboundRequest.postReq u (buildBody dk params)) = dk) := by
  constructor
  · intro k hk hkne
    show (match jGet (buildBody dk params) "integration_key" with
      | JSValue.str k => k | _ => "") = k
    unfold buildBody
    dsimp only
    rw [hk, jsOr_str_of_ne _ _ hkne]
    rw [show (truthy (JSValue.str k) && !truthy (JSValue.str k)) = false by
      cases truthy (JSValue.str k) <;> rfl]
    rw [if_neg (by simp)]
    rw [show jGet (JSValue.obj params) "integration_key" =
      getProp params "integration_key" from rfl, hk]
  · intro hg
    show (match jGet (buildBody dk params) "integration_key" with
      | JSValue.str k => k | _ => "") = dk
    unfold buildBody
    dsimp only
    have hkey : jsOr (getProp params "integration_key") (JSValue.str dk) =
        JSValue.str dk := by
      rcases hg with hg | hg <;> rw [hg]
      · rfl
      · exact jsOr_str_empty_left _
    rw [hkey]
    by_cases hdk : dk = ""
    · subst hdk
      rw [show (truthy (JSValue.str "") &&
        !truthy (getProp params "integration_key")) = false by rfl]
      rw [if_neg (by simp)]
      rw [show jGet (JSValue.obj params) "integration_key" =
        getProp params "integration_key" from rfl]
      rcases hg with hg | hg <;> rw [hg]
    · have htr : truthy (JSValue.str dk) = true := by simp [truthy, hdk]
      have hfalsy : truthy (getProp params "integration_key") = false := by
        rcases hg with hg | hg <;> rw [hg] <;> rfl
      rw [show (truthy (JSValue.str dk) &&
        !truthy (getProp params "integration_key")) = true by
        rw [htr, hfalsy]; rfl]
      rw [if_pos rfl]
      rw [show jGet (JSValue.obj (setProp params "integration_key"
        (JSValue.str dk))) "integration_key" =
        getProp (setProp params "integration_key" (JSValue.str dk))
          "integration_key" from rfl]
      rw [setProp_getProp_self]

/-- The `integration_key` value of the query string built over
`spreadObj base vp`, for a validated parameter object `vp` of a schema
declaring `integration_key` first and a base disjoint from the schema. -/
lemma authKey_spread_get (dk : String) (base : List (String × JSValue))
    (rest : List ZField) (o vp : List (String × JSValue))
    (hvf : validateFields
      (("integration_key", ZType.scalar ZScalar.zstr, true, none) :: rest) o =
      some vp)
    (hnodup : ("integration_key" :: rest.map (fun f => f.1)).Nodup)
    (hbase : ∀ n ∈ base.map (fun q => q.1),
      n ∉ "integration_key" :: rest.map (fun f => f.1)) :
    (∀ k, getProp o "integration_key" = JSValue.str k → k ≠ "" →
      lookupQS (buildQuery dk (spreadObj base vp)) "integration_key" =
        some k) ∧
    ((getProp o "integration_key" = JSValue.undef ∨
      getProp o "integration_key" = JSValue.str "") →
      lookupQS (buildQuery dk (spreadObj base vp)) "integration_key" =
        (if dk = "" then none else some dk)) := by
  have hsubvp := validateFields_keys_sublist _ _ _ hvf
  have hndvp : (vp.map (fun p => p.1)).Nodup := hsubvp.nodup hnodup
  have hfresh : ∀ p ∈ vp, p.1 ∉ base.map (fun q => q.1) := by
    intro p hp hmem
    exact hbase _ hmem (hsubvp.subset (List.mem_map_of_mem _ hp))
  have hspread := spreadObj_append vp base hfresh hndvp
  have hikrest : "integration_key" ∉ rest.map (fun f => f.1) :=
    (List.nodup_cons.mp hnodup).1
  have hbik : "integration_key" ∉ base.map (fun q => q.1) :=
    fun hx => hbase _ hx (List.mem_cons_self _ _)
  rcases validateFields_ik_head rest o vp hvf with ⟨hik, hrest⟩ |
    ⟨k', w', hik, hrest, hvpeq⟩
  · have hno : "integration_key" ∉ vp.map (fun p => p.1) :=
      validateFields_not_mem rest o vp hrest _ hikrest
    constructor
    · intro k hk _
      rw [hik] at hk
      cases hk
    · intro _
      rw [hspread]
      apply buildQuery_ik_default
      · intro p hp hpik
        rcases List.mem_append.mp hp with hpb | hpv
        · exact absurd (hpik ▸ List.mem_map_of_mem (fun q => q.1) hpb) hbik
        · exact absurd (hpik ▸ List.mem_map_of_mem (fun p => p.1) hpv) hno
      · left
        rw [getProp_append_not_mem _ _ _ hbik]
        exact getProp_eq_undef_of_not_mem _ _ hno
  · have hw'sub := validateFields_keys_sublist _ _ _ hrest
    have hw'ne : ∀ p ∈ w', p.1 ≠ "integration_key" := by
      intro p hp hx
      exact hikrest (hx ▸ hw'sub.subset (List.mem_map_of_mem (fun p => p.1) hp))
    constructor
    · intro k hk hkne
      have hkk : k' = k := by
        have := hik.symm.trans hk
        cases this
        rfl
      subst hkk
      rw [hspread, hvpeq]
      exact buildQuery_ik_found dk base w' k' hkne hw'ne
    · intro hg
      have hk0 : k' = "" := by
        rcases hg with hg | hg
        · rw [hik] at hg
          cases hg
        · have := hik.symm.trans hg
          cases this
          rfl
      subst hk0
      rw [hspread, hvpeq]
      apply buildQuery_ik_default
      · intro p hp hpik
        rcases List.mem_append.mp hp with hpb | hpv
        · exact absurd (hpik ▸ List.mem_map_of_mem (fun q => q.1) hpb) hbik
        · rcases List.mem_cons.mp hpv with rfl | hpw
          · rfl
          · exact absurd hpik (hw'ne _ hpw)
      · right
        rw [getProp_append_not_mem _ _ _ hbik, getProp_cons, if_pos rfl]

/-- The `integration_key` value of the query string built from a fixed
`[action, id, integration_key]` parameter list. -/
lemma authKey_get_fixed3 (dk a : String) (y z : JSValue) :
    (∀ k, z = JSValue.str k → k ≠ "" →
      lookupQS (buildQuery dk
        [("action", JSValue.str a), ("id", y), ("integration_key", z)]
        ) "integration_key" = some k) ∧
    ((z = JSValue.undef ∨ z = JSValue.str "") →
      lookupQS (buildQuery dk
        [("action", JSValue.str a), ("id", y), ("integration_key", z)]
        ) "integration_key" = (if dk = "" then none else some dk)) := by
  constructor
  · intro k hk hkne
    subst hk
    exact buildQuery_ik_found dk [("action", JSValue.str a), ("id", y)] [] k
      hkne (by intro p hp; cases hp)
  · intro hg
    apply buildQuery_ik_default
    · intro p hp hpik
      rcases List.mem_cons.mp hp with rfl | hp2
      · exact absurd hpik (by decide : ¬ ("action" : String) = "integration_key")
      · rcases List.mem_cons.mp hp2 with rfl | hp3
        · exact absurd hpik (by decide : ¬ ("id" : String) = "integration_key")
        · rcases List.mem_cons.mp hp3 with rfl | hp4
          · rcases hg with hg | hg <;> rw [hg] <;> rfl
          · cases hp4
    · rw [getProp_cons, if_neg (by decide), getProp_cons, if_neg (by decide),
        getProp_cons, if_pos rfl]
      exact hg

/-- The `integration_key` value of the query string when the handler itself
resolved the key (`fetch_labels`): the parameter list is headed by the
resolved key. -/
lemma authKey_get_resolved (dk : String) (z : JSValue)
    (rest : List (String × JSValue))
    (hrest : ∀ p ∈ rest, p.1 ≠ "integration_key") :
    (∀ k, z = JSValue.str k → k ≠ "" →
      lookupQS (buildQuery dk
        (("integration_key", jsOr z (JSValue.str dk)) :: rest))
        "integration_key" = some k) ∧
    ((z = JSValue.undef ∨ z = JSValue.str "") →
      lookupQS (buildQuery dk
        (("integration_key", jsOr z (JSValue.str dk)) :: rest))
        "integration_key" = (if dk = "" then none else some dk)) := by
  constructor
  · intro k hk hkne
    subst hk
    rw [jsOr_str_of_ne _ _ hkne]
    exact buildQuery_ik_found dk [] rest k hkne hrest
  · intro hg
    have hz : jsOr z (JSValue.str dk) = JSValue.str dk := by
      rcases hg with rfl | rfl
      · rfl
      · exact jsOr_str_empty_left _
    rw [hz]
    by_cases hdk : dk = ""
    · subst hdk
      apply buildQuery_ik_default
      · intro p hp hpik
        rcases List.mem_cons.mp hp with rfl | hp2
        · rfl
        · exact absurd hpik (hrest _ hp2)
      · right
        rw [getProp_cons, if_pos rfl]
    · rw [if_neg hdk]
      exact buildQuery_ik_found dk [] rest dk hdk hrest

/-- With pairwise-distinct keys, `getProp` returns the value of any member
entry. -/
lemma getProp_of_mem_nodup (l : List (String × JSValue))
    (hnd : (l.map (fun p => p.1)).Nodup) (n : String) (w : JSValue)
    (h : (n, w) ∈ l) : getProp l n = w := by
  induction l with
  | nil => cases h
  | cons p rest ih =>
    obtain ⟨k0, v0⟩ := p
    simp only [List.map_cons, List.nodup_cons] at hnd
    rcases List.mem_cons.mp h with he | hm
    · cases he
      rw [getProp_cons, if_pos rfl]
    · have hk : ¬ k0 = n := by
        intro hx
        exact hnd.1 (by rw [hx]; exact List.mem_map_of_mem (fun p => p.1) hm)
      rw [getProp_cons, if_neg hk]
      exact ih hnd.2 hm

/-- A parameter whose every occurrence fails the GET filter is absent from
the query string (for a name other than `integration_key`). -/
lemma buildQuery_ne_skip (dk n : String) (params : List (String × JSValue))
    (hne : n ≠ "integration_key")
    (hskip : ∀ p ∈ params, p.1 = n → qKeep p.2 = false) :
    lookupQS (buildQuery dk params) n = none := by
  unfold buildQuery
  rw [foldl_qsAdd_skip _ _ _ hskip]
  by_cases ht : truthy (jsOr (getProp params "integration_key")
      (JSValue.str dk)) = true
  · rw [if_pos ht, qsSet_nil, lookupQS_cons, if_neg (Ne.symm hne), lookupQS_nil]
  · rw [if_neg ht]
    rfl

/-- A parameter passing the GET filter, whose later occurrences all fail it,
is serialized into the query string. -/
lemma buildQuery_found_ne (dk n : String) (v : JSValue)
    (l1 l2 : List (String × JSValue)) (hkeep : qKeep v = true)
    (h2 : ∀ p ∈ l2, p.1 = n → qKeep p.2 = false) :
    lookupQS (buildQuery dk (l1 ++ (n, v) :: l2)) n = some (jsString v) := by
  unfold buildQuery
  exact foldl_qsAdd_found l1 l2 n v _ hkeep h2

/-- C1 (amended): for the 17 tools that declare an `integration_key`
parameter, a supplied non-empty explicit key is the authentication key
carried by the outbound request, and the process-wide default key is used
when the parameter is omitted or explicitly empty; `track_shipment` declares
no `integration_key` parameter, so its outbound request always carries the
process-wide default key, whatever the caller supplied. -/
theorem integration_key_resolution :
    (∀ i : Fin keyedTools.length, ∀ cfg args net p,
      toolInvoke cfg (keyedTools.get i) args net = some p →
      ((∀ k, jGet args "integration_key" = JSValue.str k → k ≠ "" →
        reqAuthKey (keyedTools.get i).authField p.1 = k) ∧
       ((jGet args "integration_key" = JSValue.undef ∨
         jGet args "integration_key" = JSValue.str "") →
        reqAuthKey (keyedTools.get i).authField p.1 = cfg.defaultKey))) ∧
    (∀ cfg args net p,
      toolInvoke cfg track_shipmentTool args net = some p →
      reqAuthKey "integration_key" p.1 = cfg.defaultKey) := by
  constructor
  · intro i
    fin_cases i <;> intro cfg args net p hp <;>
      obtain ⟨vp, hv, hp2⟩ := toolInvoke_inv _ _ _ _ _ hp
    · -- list_shipments
      cases args with
      | undef => cases hv
      | null => cases hv
      | bool b => cases hv
      | num n => cases hv
      | str s => cases hv
      | arr es => cases hv
      | obj o =>
        subst hp2
        have H := authKey_spread_get cfg.defaultKey
          [("action", JSValue.str "list")] _ o vp hv (by decide) (by decide)
        refine ⟨?_, ?_⟩
        · intro k hk hkne
          have h1 : (lookupQS (buildQuery cfg.defaultKey (spreadObj
              [("action", JSValue.str "list")] vp)) "integration_key").getD ""
              = k := by rw [H.1 k hk hkne]; rfl
          exact h1
        · intro hg
          have h1 : (lookupQS (buildQuery cfg.defaultKey (spreadObj
              [("action", JSValue.str "list")] vp)) "integration_key").getD ""
              = cfg.defaultKey := by
            rw [H.2 hg]
            exact getD_ik_default _
          exact h1
    · -- get_shipment
      cases args with
      | undef => cases hv
      | null => cases hv
      | bool b => cases hv
      | num n => cases hv
      | str s => cases hv
      | arr es => cases hv
      | obj o =>
        subst hp2
        have H := authKey_spread_get cfg.defaultKey
          [("action", JSValue.str "get")] _ o vp hv (by decide) (by decide)
        refine ⟨?_, ?_⟩
        · intro k hk hkne
          have h1 : (lookupQS (buildQuery cfg.defaultKey (spreadObj
              [("action", JSValue.str "get")] vp)) "integration_key").getD ""
              = k := by rw [H.1 k hk hkne]; rfl
          exact h1
        · intro hg
          have h1 : (lookupQS (buildQuery cfg.defaultKey (spreadObj
              [("action", JSValue.str "get")] vp)) "integration_key").getD ""
              = cfg.defaultKey := by
            rw [H.2 hg]
            exact getD_ik_default _
          exact h1
    · -- search_shipments
      cases args with
      | undef => cases hv
      | null => cases hv
      | bool b => cases hv
      | num n => cases hv
      | str s => cases hv
      | arr es => cases hv
      | obj o =>
        subst hp2
        have H := authKey_spread_get cfg.defaultKey
          [("action", JSValue.str "search")] _ o vp hv (by decide) (by decide)
        refine ⟨?_, ?_⟩
        · intro k hk hkne
          have h1 : (lookupQS (buildQuery cfg.defaultKey (spreadObj
              [("action", JSValue.str "search")] vp)) "integration_key").getD ""
              = k := by rw [H.1 k hk hkne]; rfl
          exact h1
        · intro hg
          have h1 : (lookupQS (buildQuery cfg.defaultKey (spreadObj
              [("action", JSValue.str "search")] vp)) "integration_key").getD ""
              = cfg.defaultKey := by
            rw [H.2 hg]
            exact getD_ik_default _
          exact h1
    · -- create_shipment
      cases args with
      | undef => cases hv
      | null => cases hv
      | bool b => cases hv
      | num n => cases hv
      | str s => cases hv
      | arr es => cases hv
      | obj o =>
        subst hp2
        have hgp := validateFields_ik_getProp _ o vp hv (by decide)
        refine ⟨?_, ?_⟩
        · intro k hk hkne
          show reqAuthKey "integrated_key" (OutboundRequest.postReq _
            (buildBody _ (("integrated_key",
              jsOr (getProp vp "integration_key")
                (JSValue.str cfg.defaultKey)) :: _))) = k
          rw [authKey_post_integrated, hgp]
          have hk' : getProp o "integration_key" = JSValue.str k := hk
          rw [hk', jsOr_str_of_ne _ _ hkne]
        · intro hg
          show reqAuthKey "integrated_key" (OutboundRequest.postReq _
            (buildBody _ (("integrated_key",
              jsOr (getProp vp "integration_key")
                (JSValue.str cfg.defaultKey)) :: _))) = cfg.defaultKey
          rw [authKey_post_integrated, hgp]
          rcases hg with hg | hg
          · have hg' : getProp o "integration_key" = JSValue.undef := hg
            rw [hg']
            rfl
          · have hg' : getProp o "integration_key" = JSValue.str "" := hg
            rw [hg', jsOr_str_empty_left]
    · -- cancel_shipment
      cases args with
      | undef => cases hv
      | null => cases hv
      | bool b => cases hv
      | num n => cases hv
      | str s => cases hv
      | arr es => cases hv
      | obj o =>
        subst hp2
        have hgp := validateFields_ik_getProp _ o vp hv (by decide)
        refine ⟨?_, ?_⟩
        · intro k hk hkne
          show reqAuthKey "integrated_key" (OutboundRequest.postReq _
            (buildBody _ (("integrated_key",
              jsOr (getProp vp "integration_key")
                (JSValue.str cfg.defaultKey)) :: _))) = k
          rw [authKey_post_integrated, hgp]
          have hk' : getProp o "integration_key" = JSValue.str k := hk
          rw [hk', jsOr_str_of_ne _ _ hkne]
        · intro hg
          show reqAuthKey "integrated_key" (OutboundRequest.postReq _
            (buildBody _ (("integrated_key",
              jsOr (getProp vp "integration_key")
                (JSValue.str cfg.defaultKey)) :: _))) = cfg.defaultKey
          rw [authKey_post_integrated, hgp]
          rcases hg with hg | hg
          · have hg' : getProp o "integration_key" = JSValue.undef := hg
            rw [hg']
            rfl
          · have hg' : getProp o "integration_key" = JSValue.str "" := hg
            rw [hg', jsOr_str_empty_left]
    · -- get_shipping_rates
      cases args with
      | undef => cases hv
      | null => cases hv
      | bool b => cases hv
      | num n => cases hv
      | str s => cases hv
      | arr es => cases hv
      | obj o =>
        subst hp2
        have hgp := validateFields_ik_getProp _ o vp hv (by decide)
        refine ⟨?_, ?_⟩
        · intro k hk hkne
          show reqAuthKey "integration_key" (OutboundRequest.postReq _
            (buildBody _ (("integration_key",
              jsOr (getProp vp "integration_key")
                (JSValue.str cfg.defaultKey)) :: _))) = k
          refine (authKey_post_ik _ _ _).1 k ?_ hkne
          rw [getProp_cons, if_pos rfl, hgp]
          have hk' : getProp o "integration_key" = JSValue.str k := hk
          rw [hk']
          exact jsOr_str_of_ne _ _ hkne
        · intro hg
          have hkv : jsOr (getProp vp "integration_key")
              (JSValue.str cfg.defaultKey) = JSValue.str cfg.defaultKey := by
            rw [hgp]
            rcases hg with hg | hg
            · have hg' : getProp o "integration_key" = JSValue.undef := hg
              rw [hg']
              rfl
            · have hg' : getProp o "integration_key" = JSValue.str "" := hg
              rw [hg']
              exact jsOr_str_empty_left _
          show reqAuthKey "integration_key" (OutboundRequest.postReq _
            (buildBody _ (("integration_key",
              jsOr (getProp vp "integration_key")
                (JSValue.str cfg.defaultKey)) :: _))) = cfg.defaultKey
          by_cases hdk : cfg.defaultKey = ""
          · refine (authKey_post_ik _ _ _).2 ?_
            right
            rw [getProp_cons, if_pos rfl, hkv, hdk]
          · refine (authKey_post_ik _ _ _).1 cfg.defaultKey ?_ hdk
            rw [getProp_cons, if_pos rfl, hkv]
    · -- schedule_pickup
      cases args with
      | undef => cases hv
      | null => cases hv
      | bool b => cases hv
      | num n => cases hv
      | str s => cases hv
      | arr es => cases hv
      | obj o =>
        subst hp2
        have hgp := validateFields_ik_getProp _ o vp hv (by decide)
        refine ⟨?_, ?_⟩
        · intro k hk hkne
          show reqAuthKey "integrated_key" (OutboundRequest.postReq _
            (buildBody _ (("integrated_key",
              jsOr (getProp vp "integration_key")
                (JSValue.str cfg.defaultKey)) :: _))) = k
          rw [authKey_post_integrated, hgp]
          have hk' : getProp o "integration_key" = JSValue.str k := hk
          rw [hk', jsOr_str_of_ne _ _ hkne]
        · intro hg
          show reqAuthKey "integrated_key" (OutboundRequest.postReq _
            (buildBody _ (("integrated_key",
              jsOr (getProp vp "integration_key")
                (JSValue.str cfg.defaultKey)) :: _))) = cfg.defaultKey
          rw [authKey_post_integrated, hgp]
          rcases hg with hg | hg
          · have hg' : getProp o "integration_key" = JSValue.undef := hg
            rw [hg']
            rfl
          · have hg' : getProp o "integration_key" = JSValue.str "" := hg
            rw [hg', jsOr_str_empty_left]
    · -- fetch_labels
      cases args with
      | undef => cases hv
      | null => cases hv
      | bool b => cases hv
      | num n => cases hv
      | str s => cases hv
      | arr es => cases hv
      | obj o =>
        subst hp2
        have hgp := validateFields_ik_getProp _ o vp hv (by decide)
        have H := authKey_get_resolved cfg.defaultKey
          (getProp vp "integration_key")
          [("page", getProp vp "page"), ("limit", getProp vp "limit"),
           ("printed", getProp vp "printed")] (by
            intro q hq
            rcases List.mem_cons.mp hq with rfl | hq2
            · exact (by decide : ¬ ("page" : String) = "integration_key")
            · rcases List.mem_cons.mp hq2 with rfl | hq3
              · exact (by decide : ¬ ("limit" : String) = "integration_key")
              · rcases List.mem_cons.mp hq3 with rfl | hq4
                · exact
                    (by decide : ¬ ("printed" : String) = "integration_key")
                · cases hq4)
        refine ⟨?_, ?_⟩
        · intro k hk hkne
          have h1 : (lookupQS (buildQuery cfg.defaultKey
              (("integration_key", jsOr (getProp vp "integration_key")
                (JSValue.str cfg.defaultKey)) ::
               [("page", getProp vp "page"), ("limit", getProp vp "limit"),
                ("printed", getProp vp "printed")]))
              "integration_key").getD "" = k := by
            rw [H.1 k (hgp.trans hk) hkne]; rfl
          exact h1
        · intro hg
          have hg2 : getProp vp "integration_key" = JSValue.undef ∨
              getProp vp "integration_key" = JSValue.str "" := by
            rw [hgp]
            exact hg
          have h1 : (lookupQS (buildQuery cfg.defaultKey
              (("integration_key", jsOr (getProp vp "integration_key")
                (JSValue.str cfg.defaultKey)) ::
               [("page", getProp vp "page"), ("limit", getProp vp "limit"),
                ("printed", getProp vp "printed")]))
              "integration_key").getD "" = cfg.defaultKey := by
            rw [H.2 hg2]
            exact getD_ik_default _
          exact h1
    · -- list_addresses
      cases args with
      | undef => cases hv
      | null => cases hv
      | bool b => cases hv
      | num n => cases hv
      | str s => cases hv
      | arr es => cases hv
      | obj o =>
        subst hp2
        have H := authKey_spread_get cfg.defaultKey
          [("action", JSValue.str "list")] _ o vp hv (by decide) (by decide)
        refine ⟨?_, ?_⟩
        · intro k hk hkne
          have h1 : (lookupQS (buildQuery cfg.defaultKey (spreadObj
              [("action", JSValue.str "list")] vp)) "integration_key").getD ""
              = k := by rw [H.1 k hk hkne]; rfl
          exact h1
        · intro hg
          have h1 : (lookupQS (buildQuery cfg.defaultKey (spreadObj
              [("action", JSValue.str "list")] vp)) "integration_key").getD ""
              = cfg.defaultKey := by
            rw [H.2 hg]
            exact getD_ik_default _
          exact h1
    · -- get_address
      cases args with
      | undef => cases hv
      | null => cases hv
      | bool b => cases hv
      | num n => cases hv
      | str s => cases hv
      | arr es => cases hv
      | obj o =>
        subst hp2
        have hgp := validateFields_ik_getProp _ o vp hv (by decide)
        have H := authKey_get_fixed3 cfg.defaultKey "get" (getProp vp "id")
          (getProp vp "integration_key")
        refine ⟨?_, ?_⟩
        · intro k hk hkne
          have h1 : (lookupQS (buildQuery cfg.defaultKey
              [("action", JSValue.str "get"), ("id", getProp vp "id"),
               ("integration_key", getProp vp "integration_key")])
              "integration_key").getD "" = k := by
            rw [H.1 k (hgp.trans hk) hkne]; rfl
          exact h1
        · intro hg
          have hg2 : getProp vp "integration_key" = JSValue.undef ∨
              getProp vp "integration_key" = JSValue.str "" := by
            rw [hgp]
            exact hg
          have h1 : (lookupQS (buildQuery cfg.defaultKey
              [("action", JSValue.str "get"), ("id", getProp vp "id"),
               ("integration_key", getProp vp "integration_key")])
              "integration_key").getD "" = cfg.defaultKey := by
            rw [H.2 hg2]
            exact getD_ik_default _
          exact h1
    · -- add_address
      cases args with
      | undef => cases hv
      | null => cases hv
      | bool b => cases hv
      | num n => cases hv
      | str s => cases hv
      | arr es => cases hv
      | obj o =>
        subst hp2
        have hsubvp := validateFields_keys_sublist _ o vp hv
        have hndvp : (vp.map (fun q => q.1)).Nodup := hsubvp.nodup (by decide)
        have hfresh : ∀ q ∈ vp, q.1 ∉
            ([("action", JSValue.str "add")].map (fun q => q.1)) := by
          intro q hq hmem
          have h1 := hsubvp.subset (List.mem_map_of_mem (fun q => q.1) hq)
          simp only [List.map_cons, List.map_nil, List.mem_singleton] at hmem
          rw [hmem] at h1
          exact absurd h1 (by decide)
        have hspread := spreadObj_append vp [("action", JSValue.str "add")]
          hfresh hndvp
        have hgp := validateFields_ik_getProp _ o vp hv (by decide)
        have hparams : getProp (spreadObj [("action", JSValue.str "add")] vp)
            "integration_key" = getProp o "integration_key" := by
          rw [hspread]
          rw [show ([("action", JSValue.str "add")] ++ vp) =
            ("action", JSValue.str "add") :: vp from rfl]
          rw [getProp_cons, if_neg (by decide), hgp]
        refine ⟨?_, ?_⟩
        · intro k hk hkne
          show reqAuthKey "integration_key" (OutboundRequest.postReq _
            (buildBody _ (spreadObj [("action", JSValue.str "add")] vp))) = k
          refine (authKey_post_ik _ _ _).1 k ?_ hkne
          rw [hparams]
          exact hk
        · intro hg
          show reqAuthKey "integration_key" (OutboundRequest.postReq _
            (buildBody _ (spreadObj [("action", JSValue.str "add")] vp))) =
            cfg.defaultKey
          refine (authKey_post_ik _ _ _).2 ?_
          rw [hparams]
          exact hg
    · -- edit_address
      cases args with
      | undef => cases hv
      | null => cases hv
      | bool b => cases hv
      | num n => cases hv
      | str s => cases hv
      | arr es => cases hv
      | obj o =>
        subst hp2
        have hsubvp := validateFields_keys_sublist _ o vp hv
        have hndvp : (vp.map (fun q => q.1)).Nodup := hsubvp.nodup (by decide)
        have hfresh : ∀ q ∈ vp, q.1 ∉
            ([("action", JSValue.str "edit")].map (fun q => q.1)) := by
          intro q hq hmem
          have h1 := hsubvp.subset (List.mem_map_of_mem (fun q => q.1) hq)
          simp only [List.map_cons, List.map_nil, List.mem_singleton] at hmem
          rw [hmem] at h1
          exact absurd h1 (by decide)
        have hspread := spreadObj_append vp [("action", JSValue.str "edit")]
          hfresh hndvp
        have hgp := validateFields_ik_getProp _ o vp hv (by decide)
        have hparams : getProp (spreadObj [("action", JSValue.str "edit")] vp)
            "integration_key" = getProp o "integration_key" := by
          rw [hspread]
          rw [show ([("action", JSValue.str "edit")] ++ vp) =
            ("action", JSValue.str "edit") :: vp from rfl]
          rw [getProp_cons, if_neg (by decide), hgp]
        refine ⟨?_, ?_⟩
        · intro k hk hkne
          show reqAuthKey "integration_key" (OutboundRequest.postReq _
            (buildBody _ (spreadObj [("action", JSValue.str "edit")] vp))) = k
          refine (authKey_post_ik _ _ _).1 k ?_ hkne
          rw [hparams]
          exact hk
        · intro hg
          show reqAuthKey "integration_key" (OutboundRequest.postReq _
            (buildBody _ (spreadObj [("action", JSValue.str "edit")] vp))) =
            cfg.defaultKey
          refine (authKey_post_ik _ _ _).2 ?_
          rw [hparams]
          exact hg
    · -- delete_address
      cases args with
      | undef => cases hv
      | null => cases hv
      | bool b => cases hv
      | num n => cases hv
      | str s => cases hv
      | arr es => cases hv
      | obj o =>
        subst hp2
        have hgp := validateFields_ik_getProp _ o vp hv (by decide)
        have hparams : getProp [("action", JSValue.str "delete"),
            ("id", getProp vp "id"),
            ("integration_key", getProp vp "integration_key")]
            "integration_key" = getProp o "integration_key" := by
          rw [getProp_cons, if_neg (by decide), getProp_cons,
            if_neg (by decide), getProp_cons, if_pos rfl, hgp]
        refine ⟨?_, ?_⟩
        · intro k hk hkne
          show reqAuthKey "integration_key" (OutboundRequest.postReq _
            (buildBody _ [("action", JSValue.str "delete"),
              ("id", getProp vp "id"),
              ("integration_key", getProp vp "integration_key")])) = k
          refine (authKey_post_ik _ _ _).1 k ?_ hkne
          rw [hparams]
          exact hk
        · intro hg
          show reqAuthKey "integration_key" (OutboundRequest.postReq _
            (buildBody _ [("action", JSValue.str "delete"),
              ("id", getProp vp "id"),
              ("integration_key", getProp vp "integration_key")])) =
            cfg.defaultKey
          refine (authKey_post_ik _ _ _).2 ?_
          rw [hparams]
          exact hg
    · -- list_carriers
      cases args with
      | undef => cases hv
      | null => cases hv
      | bool b => cases hv
      | num n => cases hv
      | str s => cases hv
      | arr es => cases hv
      | obj o =>
        subst hp2
        have H := authKey_spread_get cfg.defaultKey
          [("action", JSValue.str "list")] _ o vp hv (by decide) (by decide)
        refine ⟨?_, ?_⟩
        · intro k hk hkne
          have h1 : (lookupQS (buildQuery cfg.defaultKey (spreadObj
              [("action", JSValue.str "list")] vp)) "integration_key").getD ""
              = k := by rw [H.1 k hk hkne]; rfl
          exact h1
        · intro hg
          have h1 : (lookupQS (buildQuery cfg.defaultKey (spreadObj
              [("action", JSValue.str "list")] vp)) "integration_key").getD ""
              = cfg.defaultKey := by
            rw [H.2 hg]
            exact getD_ik_default _
          exact h1
    · -- get_carrier
      cases args with
      | undef => cases hv
      | null => cases hv
      | bool b => cases hv
      | num n => cases hv
      | str s => cases hv
      | arr es => cases hv
      | obj o =>
        subst hp2
        have hgp := validateFields_ik_getProp _ o vp hv (by decide)
        have H := authKey_get_fixed3 cfg.defaultKey "get" (getProp vp "id")
          (getProp vp "integration_key")
        refine ⟨?_, ?_⟩
        · intro k hk hkne
          have h1 : (lookupQS (buildQuery cfg.defaultKey
              [("action", JSValue.str "get"), ("id", getProp vp "id"),
               ("integration_key", getProp vp "integration_key")])
              "integration_key").getD "" = k := by
            rw [H.1 k (hgp.trans hk) hkne]; rfl
          exact h1
        · intro hg
          have hg2 : getProp vp "integration_key" = JSValue.undef ∨
              getProp vp "integration_key" = JSValue.str "" := by
            rw [hgp]
            exact hg
          have h1 : (lookupQS (buildQuery cfg.defaultKey
              [("action", JSValue.str "get"), ("id", getProp vp "id"),
               ("integration_key", getProp vp "integration_key")])
              "integration_key").getD "" = cfg.defaultKey := by
            rw [H.2 hg2]
            exact getD_ik_default _
          exact h1
    · -- get_account_info
      cases args with
      | undef => cases hv
      | null => cases hv
      | bool b => cases hv
      | num n => cases hv
      | str s => cases hv
      | arr es => cases hv
      | obj o =>
        subst hp2
        have H := authKey_spread_get cfg.defaultKey [] _ o vp hv
          (by decide) (by decide)
        refine ⟨?_, ?_⟩
        · intro k hk hkne
          have h1 : (lookupQS (buildQuery cfg.defaultKey (spreadObj [] vp))
              "integration_key").getD "" = k := by rw [H.1 k hk hkne]; rfl
          exact h1
        · intro hg
          have h1 : (lookupQS (buildQuery cfg.defaultKey (spreadObj [] vp))
              "integration_key").getD "" = cfg.defaultKey := by
            rw [H.2 hg]
            exact getD_ik_default _
          exact h1
    · -- get_shipping_stats
      cases args with
      | undef => cases hv
      | null => cases hv
      | bool b => cases hv
      | num n => cases hv
      | str s => cases hv
      | arr es => cases hv
      | obj o =>
        subst hp2
        have H := authKey_spread_get cfg.defaultKey [] _ o vp hv
          (by decide) (by decide)
        refine ⟨?_, ?_⟩
        · intro k hk hkne
          have h1 : (lookupQS (buildQuery cfg.defaultKey (spreadObj [] vp))
              "integration_key").getD "" = k := by rw [H.1 k hk hkne]; rfl
          exact h1
        · intro hg
          have h1 : (lookupQS (buildQuery cfg.defaultKey (spreadObj [] vp))
              "integration_key").getD "" = cfg.defaultKey := by
            rw [H.2 hg]
            exact getD_ik_default _
          exact h1
  · intro cfg args net p hp
    obtain ⟨vp, hv, hp2⟩ := toolInvoke_inv _ _ _ _ _ hp
    subst hp2
    have hskip : ∀ q ∈ [("tracking_number", getProp vp "tracking_number"),
        ("carrier", jsOr (getProp vp "carrier") (JSValue.str ""))],
        q.1 = "integration_key" → qKeep q.2 = false := by
      intro q hq hqik
      rcases List.mem_cons.mp hq with rfl | hq2
      · exact absurd hqik
          (by decide : ¬ ("tracking_number" : String) = "integration_key")
      · rcases List.mem_cons.mp hq2 with rfl | hq3
        · exact absurd hqik
            (by decide : ¬ ("carrier" : String) = "integration_key")
        · cases hq3
    have hgp0 : getProp [("tracking_number", getProp vp "tracking_number"),
        ("carrier", jsOr (getProp vp "carrier") (JSValue.str ""))]
        "integration_key" = JSValue.undef := by
      rw [getProp_cons, if_neg (by decide), getProp_cons, if_neg (by decide)]
      rfl
    have h1 : (lookupQS (buildQuery cfg.defaultKey
        [("tracking_number", getProp vp "tracking_number"),
         ("carrier", jsOr (getProp vp "carrier") (JSValue.str ""))])
        "integration_key").getD "" = cfg.defaultKey := by
      rw [buildQuery_ik_default cfg.defaultKey _ hskip (Or.inl hgp0)]
      exact getD_ik_default _
    exact h1

/-- C1 counterexample to the claimed universality over all 18 tools: under
the startup configuration `cfg0` (default key `"DK"`), a `track_shipment`
call that explicitly supplies `integration_key:"CALLERKEY"` sends the
default key `"DK"`, not the caller's key — the tool declares no
`integration_key` parameter, so validation strips the caller's value; and a
`list_shipments` call that explicitly supplies `integration_key:""` also
sends `"DK"`, because `params.integration_key || DEFAULT_KEY` treats the
explicit empty string as absent. -/
theorem integration_key_resolution_cex :
    ((toolInvoke cfg0 track_shipmentTool
        (JSValue.obj [("tracking_number", JSValue.str "1Z999"),
          ("integration_key", JSValue.str "CALLERKEY")]) netDown).map
      (fun p => reqAuthKey "integration_key" p.1) = some "DK" ∧
     "DK" ≠ "CALLERKEY") ∧
    ((toolInvoke cfg0 list_shipmentsTool
        (JSValue.obj [("integration_key", JSValue.str "")]) netDown).map
      (fun p => reqAuthKey "integration_key" p.1) = some "DK" ∧
     "DK" ≠ "") :=
  ⟨⟨rfl, by decide⟩, ⟨rfl, by decide⟩⟩

/-- Witness for the amended C1 theorem: `get_account_info` with the explicit
key `"K1"` sends `"K1"`. -/
theorem integration_key_resolution_witness :
    ∃ p, toolInvoke cfg0 get_account_infoTool
        (JSValue.obj [("integration_key", JSValue.str "K1")]) netDown =
        some p ∧
      reqAuthKey "integration_key" p.1 = "K1" := by
  obtain ⟨p, hp⟩ : ∃ p, toolInvoke cfg0 get_account_infoTool
      (JSValue.obj [("integration_key", JSValue.str "K1")]) netDown =
      some p := ⟨_, rfl⟩
  exact ⟨p, hp, (integration_key_resolution.1 ⟨15, by decide⟩ cfg0 _ netDown p
    hp).1 "K1" rfl (by decide)⟩

/-- C7 (amended): in the query string the GET branch of `shipiRequest`
builds from a parameter list with pairwise-distinct names, every parameter
other than `integration_key` is omitted exactly when its value is
`undefined`, `null`, or the empty string, and is serialized to its string
coercion otherwise; an `integration_key` parameter that is absent or
explicitly empty never contributes its own value, but the query still
carries `integration_key` with the process-wide default key whenever that
default is non-empty. -/
theorem get_query_param_filtering (dk : String)
    (params : List (String × JSValue))
    (hnd : (params.map (fun p => p.1)).Nodup) :
    (∀ n v, (n, v) ∈ params → n ≠ "integration_key" →
      (qKeep v = false → lookupQS (buildQuery dk params) n = none) ∧
      (qKeep v = true →
        lookupQS (buildQuery dk params) n = some (jsString v))) ∧
    ((getProp params "integration_key" = JSValue.undef ∨
      getProp params "integration_key" = JSValue.str "") →
      lookupQS (buildQuery dk params) "integration_key" =
        (if dk = "" then none else some dk)) := by
  constructor
  · intro n v hmem hne
    constructor
    · intro hfalse
      apply buildQuery_ne_skip dk n params hne
      intro p hp hpn
      have hp' : (n, p.2) ∈ params := by
        rw [← hpn]
        simpa using hp
      have hpv : p.2 = v := nodup_keys_unique params hnd n p.2 v hp' hmem
      rw [hpv]
      exact hfalse
    · intro hkeep
      obtain ⟨l1, l2, hsplit⟩ := List.append_of_mem hmem
      subst hsplit
      apply buildQuery_found_ne dk n v l1 l2 hkeep
      intro p hp hpn
      have hnmem : n ∈ l2.map (fun p => p.1) :=
        hpn ▸ List.mem_map_of_mem (fun p => p.1) hp
      have hnd2 : (n :: l2.map (fun p => p.1)).Nodup := by
        have h0 := hnd
        rw [List.map_append, List.map_cons] at h0
        exact h0.of_append_right
      exact absurd hnmem (List.nodup_cons.mp hnd2).1
  · intro hg
    apply buildQuery_ik_default dk params ?_ hg
    intro p hp hpn
    have hp' : ("integration_key", p.2) ∈ params := by
      rw [← hpn]
      simpa using hp
    have hgp := getProp_of_mem_nodup params hnd "integration_key" p.2 hp'
    rcases hg with hg | hg
    · rw [hgp.symm.trans hg]
      rfl
    · rw [hgp.symm.trans hg]
      rfl

/-- C7 counterexample to "that parameter does not appear in the query
string": under `cfg0` (default key `"DK"`), a `list_shipments` call
supplying the empty-string parameter `integration_key:""` still yields a
query string in which `integration_key` appears — carrying the default key
`"DK"` — because the GET branch seeds the query with the resolved key
before filtering the parameters. -/
theorem get_query_param_filtering_cex :
    (toolInvoke cfg0 list_shipmentsTool
        (JSValue.obj [("integration_key", JSValue.str "")]) netDown).map
      (fun p => lookupQS (reqQuery p.1) "integration_key") =
      some (some "DK") ∧
    some (some "DK") ≠ some (none : Option String) :=
  ⟨rfl, by decide⟩

/-- Witness for the amended C7 theorem at a concrete parameter list:
`status:""` is omitted while `page:1` is serialized. -/
theorem get_query_param_filtering_witness :
    (([("integration_key", JSValue.str "K1"), ("page", JSValue.num 1),
       ("status", JSValue.str "")].map (fun p => p.1)).Nodup) ∧
    lookupQS (buildQuery "DK" [("integration_key", JSValue.str "K1"),
      ("page", JSValue.num 1), ("status", JSValue.str "")]) "status" =
      none ∧
    lookupQS (buildQuery "DK" [("integration_key", JSValue.str "K1"),
      ("page", JSValue.num 1), ("status", JSValue.str "")]) "page" =
      some (jsString (JSValue.num 1)) := by
  refine ⟨by decide, ?_, ?_⟩
  · exact ((get_query_param_filtering "DK" _ (by decide)).1 "status"
      (JSValue.str "")
      (List.Mem.tail _ (List.Mem.tail _ (List.Mem.head _)))
      (by decide)).1 rfl
  · exact ((get_query_param_filtering "DK" _ (by decide)).1 "page"
      (JSValue.num 1)
      (List.Mem.tail _ (List.Mem.head _))
      (by decide)).2 rfl

end Shipi
